import Mathlib

/-!
Shallow embedding of the go-hachi CHIP-8 emulator and disassembler.

The Go sources are embedded as follows:

* `Chip8`, `Chip8Settings`, `Validate`, `New`, `LoadRaw` model the machine
  state, its configuration and construction (`src/unnamed/part_001`).
* `Tick` / `tickFetch` / `execOp` model the `Tick` fetch-decode-execute
  cycle line by line.  Go's `uint8`/`uint16` arithmetic is rendered over
  `Nat` with explicit `% 256` / `% 65536` where the machine width matters.
* Byte slices become `List Nat`; a Go out-of-range slice or index access
  (a runtime fault) is rendered as the explicit result `TickOut.crash`.
* The registered platform driver (`src/hachi/drivers.go`) is the no-op
  `NullDriver` in every configuration the claims touch; its observable
  calls (`Cls`, `UpdateScreen`, `Beep`) are recorded as an `Event` list.
* `math/rand` is modelled as an injected stream of pre-drawn numbers
  (`Rng` field); wall-clock time is passed to `Tick` as `now` (nanoseconds)
  and `time.Time` zero value is `lastTimerUpdate = none`.
* The "realistic" mode aliasing of stack and screen into `Memory` (an
  `unsafe.Pointer` slice reinterpretation in the source) is modelled by
  independent buffers of the sizes the reinterpretation produces; no claim
  reads the stack or screen through raw memory.
-/

set_option maxRecDepth 100000

namespace GoHachi

/-- Error kinds of the emulator: `OutOfMemoryErr`, `StackOverflowErr`,
`BadCodeErr`, `OverflowErr`, `AccessErr` from `src/unnamed/part_001`. -/
inductive Err where
  | outOfMemory
  | stackOverflow
  | badCode
  | overflow
  | access
deriving DecidableEq, Repr

/-- Observable driver callbacks made during a cycle: `Cls()`,
`UpdateScreen(c)` and `Beep()` of the `Driver` interface. -/
inductive Event where
  | clsEvent
  | screenUpdate
  | beep
deriving DecidableEq, Repr

/-- Machine state: the `Chip8` struct.  `Memory`, `Stack`, `Screen` are byte
and word buffers; `SP` is the Go `int` stack pointer (starts at -1);
`lastTimerUpdate` is `none` for the `time.Time` zero value.  `wii` holds the
pending `waitInputInfo` (register, zeroBits).  `LegacyMode` records which
function pointers (`pShr`, `pShl`, `pLdMemory`, `pLdSetMemory`) were selected
at construction; `Rng` is the injected stream standing for `math/rand`. -/
structure Chip8 where
  Memory : List Nat
  V : List Nat
  I : Nat
  Stack : List Nat
  SP : Int
  PC : Nat
  DT : Nat
  ST : Nat
  Keyboard : Nat
  Screen : List Nat
  Width : Nat
  Height : Nat
  TimerInterval : Nat
  lastTimerUpdate : Option Nat
  wii : Option (Nat × Nat)
  LegacyMode : Bool
  Rng : List Nat
deriving DecidableEq, Repr

instance : Inhabited Chip8 :=
  ⟨⟨[], [], 0, [], -1, 0, 0, 0, 0, [], 0, 0, 0, none, none, false, []⟩⟩

/-- Result of one cycle: a successful state with its emitted events, an error
with the state at the moment the error was returned, or a Go runtime fault
(out-of-range slice or index access). -/
inductive TickOut where
  | ok : Chip8 → List Event → TickOut
  | err : Err → Chip8 → TickOut
  | crash : TickOut
deriving DecidableEq, Repr

/-- Configuration: the `Chip8Settings` struct.  Width and Height are `uint8`
in the source; `StackSize` is a Go `int` (non-negative in every reachable
configuration). -/
structure Chip8Settings where
  MemorySize : Nat
  StackSize : Nat
  Width : Nat
  Height : Nat
  Realistic : Bool
  LegacyMode : Bool
deriving DecidableEq, Repr

/-- Validation of settings (`Chip8Settings.Validate`), returning the error
message if any. -/
def Validate (s : Chip8Settings) : Option String :=
  if s.Width % 8 ≠ 0 then some "Width must be a multiple of 8." else
  if s.Height % 8 ≠ 0 then some "Height must be a multiple of 8." else
  if s.Width < 8 then some "Width must be >= 8." else
  if s.Height < 15 then some "Height must be >= 15." else
  if s.Realistic ∧ s.StackSize > 12 then
    some "StackSize must be <= 12 in realistic mode." else
  if s.Realistic ∧ s.Width * s.Height > 2048 then
    some "Width*Height must be <= 2048 in realistic mode." else
  none

/-- Default settings `DefaultSettings`: 4 KiB memory, stack size 12,
64x32 screen, realistic mode on, legacy mode off. -/
def DefaultSettings : Chip8Settings :=
  { MemorySize := 0x1000, StackSize := 12, Width := 64, Height := 32,
    Realistic := true, LegacyMode := false }

/-- Font sprite data copied to the start of memory by `New`. -/
def fontData : List Nat :=
  [0xF0, 0x90, 0x90, 0x90, 0xF0,
   0x20, 0x60, 0x20, 0x20, 0x70,
   0xF0, 0x10, 0xF0, 0x80, 0xF0,
   0xF0, 0x10, 0xF0, 0x10, 0xF0,
   0x90, 0x90, 0xF0, 0x10, 0x10,
   0xF0, 0x80, 0xF0, 0x10, 0xF0,
   0xF0, 0x80, 0xF0, 0x90, 0xF0,
   0xF0, 0x10, 0x20, 0x40, 0x40,
   0xF0, 0x90, 0xF0, 0x90, 0xF0,
   0xF0, 0x90, 0xF0, 0x10, 0xF0,
   0xF0, 0x90, 0xF0, 0x90, 0x90,
   0xE0, 0x90, 0xE0, 0x90, 0xE0,
   0xF0, 0x80, 0x80, 0x80, 0xF0,
   0xE0, 0x90, 0x90, 0x90, 0xE0,
   0xF0, 0x80, 0xF0, 0x80, 0xF0,
   0xF0, 0x80, 0xF0, 0x80, 0x80]

/-- Go's `copy(dst[off:], src)`: overwrite `dst` starting at `off` with as
much of `src` as fits, leaving the length unchanged. -/
def overwrite (dst : List Nat) (off : Nat) (src : List Nat) : List Nat :=
  dst.take off ++ src.take (dst.length - off) ++ dst.drop (off + src.length)

/-- Construction (`New`): validates, allocates buffers and copies the fonts.
In realistic mode the Go source reinterprets the byte slice
`Memory[0xEA0 : 0xEA0+uint16(StackSize)]` as a `[]uint16`, dividing its
length by `unsafe.Sizeof(uint16)` = 2, so the stack holds `StackSize / 2`
16-bit slots (the aliased bytes are all zero at this point, as is the
aliased screen window at 0xF00).  The registered driver is the no-op
`NullDriver`. -/
def New (s : Chip8Settings) : Except String Chip8 :=
  match Validate s with
  | some e => .error e
  | none =>
    let stackLen := if s.Realistic then (s.StackSize % 65536) / 2 else s.StackSize
    .ok { Memory := overwrite (List.replicate s.MemorySize 0) 0 fontData
          V := List.replicate 16 0
          I := 0
          Stack := List.replicate stackLen 0
          SP := -1
          PC := 0
          DT := 0
          ST := 0
          Keyboard := 0
          Screen := List.replicate (s.Width * s.Height / 8) 0
          Width := s.Width
          Height := s.Height
          TimerInterval := 1000000000 / 60
          lastTimerUpdate := none
          wii := none
          LegacyMode := s.LegacyMode
          Rng := [] }

/-- Loading a program buffer (`LoadRaw`): fails with `OutOfMemoryErr` when
the program exceeds `len(Memory) - 0x200`, otherwise copies it to 0x200.
(`LoadRaw` does not set the program counter; only `Load` does, to 0x200.) -/
def LoadRaw (c : Chip8) (program : List Nat) : Except Err Chip8 :=
  if (program.length : Int) > (c.Memory.length : Int) - 0x200 then
    .error .outOfMemory
  else
    .ok { c with Memory := overwrite c.Memory 0x200 program }

/-- The key-selection loop run when a pending key wait resolves.  The Go
loop walks `mask` = 1, 2, 4, ..., 0x8000, assigning
`V[register] = KeyNumbers[changed & mask]` each iteration and stopping as
soon as that value is non-zero, or after the 0x8000 iteration.  A Go map
lookup of a missing key (here: `changed & mask == 0`) yields the zero value
0, and `KeyNumbers` maps the flag `1 <<< k` to `k` — so each iteration
assigns `k` if bit `k` of `changed` is set and 0 otherwise.  The fuel
argument counts the iterations remaining after the current one. -/
def pickKeyAux (changed : Nat) : Nat → Nat → Nat
  | 0, k => if changed.testBit k then k else 0
  | fuel + 1, k =>
    let v := if changed.testBit k then k else 0
    if v ≠ 0 then v else pickKeyAux changed fuel (k + 1)

/-- Value left in the wait's target register by the key-selection loop. -/
def pickKey (changed : Nat) : Nat :=
  pickKeyAux changed 15 0

/-- XOR a value into the byte at index `i` of a packed screen buffer
(`c.Screen[i] ^= v` in the source).  The source panics on an
out-of-range index; the embedding leaves the list unchanged there and
does not represent that fault, so every theorem about drawing or
totality restricts to buffers of exactly `Width/8 * Height` bytes (the
shape `New` builds), on which every draw index is in range. -/
def xorAt (s : List Nat) (i v : Nat) : List Nat :=
  s.set i ((s.getD i 0) ^^^ v)

/-- The eight masks walked by the collision-detection loop of `DRW`
(`mask := uint8(0x01); ...; mask <<= 1` with a break at 0x80). -/
def scanMasks : List Nat :=
  [0x01, 0x02, 0x04, 0x08, 0x10, 0x20, 0x40, 0x80]

/-- Collision-detection loop of `DRW` for one sprite row: returns 1 as soon
as a bit set in `old1` (resp. `old2`, only when `bitoff ≠ 0`) is cleared in
the freshly XORed screen byte `new1` (resp. `new2`), 0 after checking the
0x80 mask.  Arguments mirror `oldval1`, `c.Screen[index]`, `mask1`,
`oldval2`, `c.Screen[nextIndex]`, `mask2` of the source. -/
def collideScan (bitoff old1 new1 m1 old2 new2 m2 : Nat) : List Nat → Nat
  | [] => 0
  | m :: rest =>
    if (old1 &&& m) > (new1 &&& m1 &&& m) then 1
    else if bitoff ≠ 0 ∧ (old2 &&& m) > (new2 &&& m2 &&& m) then 1
    else if m = 0x80 then 0
    else collideScan bitoff old1 new1 m1 old2 new2 m2 rest

/-- The row loop of `DRW VX,VY,N`.  Arguments: horizontal pixel position
`x` (already reduced mod Width), screen byte width `bw = Width/8`, screen
height `h`, the sprite bytes, the current row pixel position `y`, the screen
buffer and the running collision flag (the source keeps it in `V[0xF]`,
zeroed just before the loop).  Each row XORs the sprite byte into the one or
two screen bytes it straddles, runs the collision scan while the flag is
still 0, and advances `y` by one row mod `h`. -/
def drwLoop (x bw h : Nat) : List Nat → Nat → List Nat → Nat → List Nat × Nat
  | [], _, s, vf => (s, vf)
  | b :: rest, y, s, vf =>
    let bc := y * bw
    let i := bc + x / 8
    let ni := bc + (x / 8 + 1) % bw
    let bo := x % 8
    let m1 := 0xFF >>> bo
    let m2 := m1 ^^^ 0xFF
    let old1 := (s.getD i 0) &&& m1
    let s1 := xorAt s i (b >>> bo)
    let old2 := if bo ≠ 0 then (s1.getD ni 0) &&& m2 else 0
    let s2 := if bo ≠ 0 then xorAt s1 ni ((b <<< (8 - bo)) % 256) else s1
    let vf2 :=
      if vf = 0 then
        collideScan bo old1 (s2.getD i 0) m1 old2 (s2.getD ni 0) m2 scanMasks
      else vf
    drwLoop x bw h rest ((y + 1) % h) s2 vf2

/-- The store loop of `FX55` (`for i := 0; i <= x; i++`): writes registers
`V[0] .. V[count]` to `mem[base] .. mem[base+count]`.  Recursion peels the
last iteration; the write set and values match the source loop. -/
def storeRegs (mem V : List Nat) (base : Nat) : Nat → List Nat
  | 0 => mem.set base (V.getD 0 0)
  | k + 1 => (storeRegs mem V base k).set (base + (k + 1)) (V.getD (k + 1) 0)

/-- The load loop of `FX65`: fills `V[0] .. V[count]` from
`mem[base] .. mem[base+count]`. -/
def loadRegs (V mem : List Nat) (base : Nat) : Nat → List Nat
  | 0 => V.set 0 (mem.getD base 0)
  | k + 1 => (loadRegs V mem base k).set (k + 1) (mem.getD (base + (k + 1)) 0)

/-- One iteration count of the timer-drain loop: how many times
`now.Sub(lastTimerUpdate) >= TimerInterval` holds while `lastTimerUpdate`
advances by one interval per iteration.  The source loop never terminates
for a zero interval — a hang the embedding does not represent (this
count is then 0) — so the totality theorem hypothesises a positive
interval, which every configuration constructed by `New` has
(1e9/60 ns). -/
def drainSteps (now last interval : Nat) : Nat :=
  if interval = 0 then 0 else (now - last) / interval

/-- Body of the timer-drain loop, iterated `k` times: decrement `DT` and
`ST` when non-zero, emit a beep per `ST` decrement, advance
`lastTimerUpdate` by one interval. -/
def drainLoop (interval : Nat) : Nat → Chip8 → Chip8 × List Event
  | 0, c => (c, [])
  | k + 1, c =>
    let c1 := if c.DT > 0 then { c with DT := c.DT - 1 } else c
    let r2 := if c1.ST > 0 then ({ c1 with ST := c1.ST - 1 }, [Event.beep])
              else (c1, ([] : List Event))
    let c3 := { r2.1 with lastTimerUpdate := r2.1.lastTimerUpdate.map (· + interval) }
    let r4 := drainLoop interval k c3
    (r4.1, r2.2 ++ r4.2)

/-- The timer-drain step at the end of a successful cycle: initialise
`lastTimerUpdate` on first use (the `IsZero` check), then run the drain
loop for every whole interval elapsed. -/
def drainTimers (c : Chip8) (now : Nat) : Chip8 × List Event :=
  let c0 := match c.lastTimerUpdate with
            | none => { c with lastTimerUpdate := some now }
            | some _ => c
  let last := c0.lastTimerUpdate.getD now
  drainLoop c.TimerInterval (drainSteps now last c.TimerInterval) c0

/-- The 0x0 group of the `Tick` switch (`SYS NNN`): only 0x0E0 (CLS) and
0x0EE (RET) are implemented; any other syscall is silently ignored. -/
def execSys (b0 b1 : Nat) (c : Chip8) : TickOut :=
  if ((b0 &&& 0x0F) <<< 8) ||| b1 = 0x0E0 then
    .ok { c with Screen := c.Screen.map (fun _ => 0) } [.clsEvent]
  else if ((b0 &&& 0x0F) <<< 8) ||| b1 = 0x0EE then
    if c.SP < 0 then .err .stackOverflow c
    else if c.SP.toNat < c.Stack.length then
      .ok { c with PC := c.Stack.getD c.SP.toNat 0, SP := c.SP - 1 } []
    else .crash
  else .ok c []

/-- The 0x8 group of the `Tick` switch (register-register ALU forms),
dispatched on the low nibble of the second byte. -/
def execGroup8 (b0 b1 : Nat) (c : Chip8) : TickOut :=
  if b1 &&& 0x0F = 0x0 then
    .ok { c with V := c.V.set (b0 &&& 0x0F) (c.V.getD ((b1 &&& 0xF0) >>> 4) 0) } []
  else if b1 &&& 0x0F = 0x1 then
    .ok { c with V := (c.V.set (b0 &&& 0x0F)
          (c.V.getD (b0 &&& 0x0F) 0 ||| c.V.getD ((b1 &&& 0xF0) >>> 4) 0)) } []
  else if b1 &&& 0x0F = 0x2 then
    .ok { c with V := (c.V.set (b0 &&& 0x0F)
          (c.V.getD (b0 &&& 0x0F) 0 &&& c.V.getD ((b1 &&& 0xF0) >>> 4) 0)) } []
  else if b1 &&& 0x0F = 0x3 then
    .ok { c with V := (c.V.set (b0 &&& 0x0F)
          (c.V.getD (b0 &&& 0x0F) 0 ^^^ c.V.getD ((b1 &&& 0xF0) >>> 4) 0)) } []
  else if b1 &&& 0x0F = 0x4 then
    -- ADD VX,VY: 16-bit intermediate sum; low byte stored first, then the
    -- carry flag.
    if (c.V.getD (b0 &&& 0x0F) 0 + c.V.getD ((b1 &&& 0xF0) >>> 4) 0)
        &&& 0xFF00 ≠ 0 then
      .ok { c with V := ((c.V.set (b0 &&& 0x0F)
            ((c.V.getD (b0 &&& 0x0F) 0 + c.V.getD ((b1 &&& 0xF0) >>> 4) 0)
              % 256)).set 0xF 1) } []
    else
      .ok { c with V := ((c.V.set (b0 &&& 0x0F)
            ((c.V.getD (b0 &&& 0x0F) 0 + c.V.getD ((b1 &&& 0xF0) >>> 4) 0)
              % 256)).set 0xF 0) } []
  else if b1 &&& 0x0F = 0x5 then
    -- SUB VX,VY: flag written before the subtraction (the subtraction
    -- reads the register file after the flag write, as in the source).
    if c.V.getD (b0 &&& 0x0F) 0 ≥ c.V.getD ((b1 &&& 0xF0) >>> 4) 0 then
      .ok { c with V := ((c.V.set 0xF 1).set (b0 &&& 0x0F)
            (((c.V.set 0xF 1).getD (b0 &&& 0x0F) 0 + 256
                - (c.V.set 0xF 1).getD ((b1 &&& 0xF0) >>> 4) 0) % 256)) } []
    else
      .ok { c with V := ((c.V.set 0xF 0).set (b0 &&& 0x0F)
            (((c.V.set 0xF 0).getD (b0 &&& 0x0F) 0 + 256
                - (c.V.set 0xF 0).getD ((b1 &&& 0xF0) >>> 4) 0) % 256)) } []
  else if b1 &&& 0x0F = 0x6 then
    -- SHR VX,VY through the pShr function pointer chosen by LegacyMode.
    if c.LegacyMode then
      .ok { c with V := ((c.V.set 0xF (c.V.getD ((b1 &&& 0xF0) >>> 4) 0 &&& 0x01)).set
            (b0 &&& 0x0F)
            ((c.V.set 0xF (c.V.getD ((b1 &&& 0xF0) >>> 4) 0 &&& 0x01)).getD
                ((b1 &&& 0xF0) >>> 4) 0 >>> 1)) } []
    else
      .ok { c with V := ((c.V.set 0xF (c.V.getD (b0 &&& 0x0F) 0 &&& 0x01)).set
            (b0 &&& 0x0F)
            ((c.V.set 0xF (c.V.getD (b0 &&& 0x0F) 0 &&& 0x01)).getD
                (b0 &&& 0x0F) 0 >>> 1)) } []
  else if b1 &&& 0x0F = 0x7 then
    -- SUBN VX,VY: inverted borrow polarity, VX = VY - VX.
    if c.V.getD (b0 &&& 0x0F) 0 > c.V.getD ((b1 &&& 0xF0) >>> 4) 0 then
      .ok { c with V := ((c.V.set 0xF 0).set (b0 &&& 0x0F)
            (((c.V.set 0xF 0).getD ((b1 &&& 0xF0) >>> 4) 0 + 256
                - (c.V.set 0xF 0).getD (b0 &&& 0x0F) 0) % 256)) } []
    else
      .ok { c with V := ((c.V.set 0xF 1).set (b0 &&& 0x0F)
            (((c.V.set 0xF 1).getD ((b1 &&& 0xF0) >>> 4) 0 + 256
                - (c.V.set 0xF 1).getD (b0 &&& 0x0F) 0) % 256)) } []
  else if b1 &&& 0x0F = 0xE then
    -- SHL VX,VY through pShl; the flag receives VX & 0x80 (0 or 128).
    if c.LegacyMode then
      .ok { c with V := ((c.V.set 0xF (c.V.getD ((b1 &&& 0xF0) >>> 4) 0 &&& 0x80)).set
            (b0 &&& 0x0F)
            (((c.V.set 0xF (c.V.getD ((b1 &&& 0xF0) >>> 4) 0 &&& 0x80)).getD
                ((b1 &&& 0xF0) >>> 4) 0 <<< 1) % 256)) } []
    else
      .ok { c with V := ((c.V.set 0xF (c.V.getD (b0 &&& 0x0F) 0 &&& 0x80)).set
            (b0 &&& 0x0F)
            (((c.V.set 0xF (c.V.getD (b0 &&& 0x0F) 0 &&& 0x80)).getD
                (b0 &&& 0x0F) 0 <<< 1) % 256)) } []
  else .err .badCode c

/-- The `DRW VX,VY,N` arm of the `Tick` switch.  The coordinate reductions
`% Width`, `% Height` fault on a zero dimension (Go division by zero),
before the bounds checks. -/
def execDrw (b0 b1 : Nat) (c : Chip8) : TickOut :=
  if c.Width = 0 ∨ c.Height = 0 then .crash
  else if 0xFFFF - c.I < b1 &&& 0x0F then .err .overflow c
  else if (c.I : Int) + ((b1 &&& 0x0F : Nat) : Int) - 1
      ≥ (c.Memory.length : Int) then
    .err .access c
  else
    .ok { c with
          Screen := (drwLoop (c.V.getD (b0 &&& 0x0F) 0 % c.Width)
              (c.Width / 8) c.Height
              ((List.range (b1 &&& 0x0F)).map fun j => c.Memory.getD (c.I + j) 0)
              (c.V.getD ((b1 &&& 0xF0) >>> 4) 0 % c.Height) c.Screen 0).1,
          V := c.V.set 0xF (drwLoop (c.V.getD (b0 &&& 0x0F) 0 % c.Width)
              (c.Width / 8) c.Height
              ((List.range (b1 &&& 0x0F)).map fun j => c.Memory.getD (c.I + j) 0)
              (c.V.getD ((b1 &&& 0xF0) >>> 4) 0 % c.Height) c.Screen 0).2 }
      [.screenUpdate]

/-- The 0xE group of the `Tick` switch (`SKP VX` / `SKNP VX`): the
`KeyFlags[c.V[x]]` lookup faults when the register value is ≥ 16. -/
def execGroupE (b0 b1 : Nat) (c : Chip8) : TickOut :=
  if b1 = 0x9E then
    if c.V.getD (b0 &&& 0x0F) 0 < 16 then
      if c.Keyboard &&& (1 <<< c.V.getD (b0 &&& 0x0F) 0) ≠ 0 then
        .ok { c with PC := (c.PC + 2) % 65536 } []
      else .ok c []
    else .crash
  else if b1 = 0xA1 then
    if c.V.getD (b0 &&& 0x0F) 0 < 16 then
      if c.Keyboard &&& (1 <<< c.V.getD (b0 &&& 0x0F) 0) = 0 then
        .ok { c with PC := (c.PC + 2) % 65536 } []
      else .ok c []
    else .crash
  else .err .badCode c

/-- The 0xF group of the `Tick` switch, dispatched on the second byte. -/
def execGroupF (b0 b1 : Nat) (c : Chip8) : TickOut :=
  if b1 = 0x07 then .ok { c with V := c.V.set (b0 &&& 0x0F) c.DT } []
  else if b1 = 0x0A then
    -- LD VX,K: record the pending wait with the complement of the current
    -- keyboard bits (`^c.Keyboard` on uint16).
    .ok { c with wii := some (b0 &&& 0x0F, c.Keyboard ^^^ 0xFFFF) } []
  else if b1 = 0x15 then .ok { c with DT := c.V.getD (b0 &&& 0x0F) 0 } []
  else if b1 = 0x18 then .ok { c with ST := c.V.getD (b0 &&& 0x0F) 0 } []
  else if b1 = 0x1E then
    -- ADD I,VX: the documented-feature flag update is commented out in the
    -- source; only the wrapping add remains.
    .ok { c with I := (c.I + c.V.getD (b0 &&& 0x0F) 0) % 65536 } []
  else if b1 = 0x29 then
    .ok { c with I := (c.V.getD (b0 &&& 0x0F) 0 * 5) % 65536 } []
  else if b1 = 0x33 then
    if (c.I : Int) + 2 ≥ (c.Memory.length : Int) ∨ c.I < 0x200 then
      .err .access c
    else
      .ok { c with
            Memory := (((c.Memory.set (c.I + 2) (c.V.getD (b0 &&& 0x0F) 0 % 10)).set
                (c.I + 1) (c.V.getD (b0 &&& 0x0F) 0 / 10 % 10)).set
                c.I (c.V.getD (b0 &&& 0x0F) 0 / 10 / 10)) } []
  else if b1 = 0x55 then
    if 0xFFFF - c.I < b0 &&& 0x0F then .err .overflow c
    else if (c.I : Int) + ((b0 &&& 0x0F : Nat) : Int) ≥ (c.Memory.length : Int)
        ∨ c.I < 0x200 then
      .err .access c
    else if c.LegacyMode then
      -- pLdSetMemory: both modes write the same bytes; legacy mode leaves
      -- I incremented past the block.
      .ok { c with Memory := storeRegs c.Memory c.V c.I (b0 &&& 0x0F),
                   I := (c.I + (b0 &&& 0x0F) + 1) % 65536 } []
    else
      .ok { c with Memory := storeRegs c.Memory c.V c.I (b0 &&& 0x0F) } []
  else if b1 = 0x65 then
    if 0xFFFF - c.I < b0 &&& 0x0F then .err .overflow c
    else if (c.I : Int) + ((b0 &&& 0x0F : Nat) : Int) ≥ (c.Memory.length : Int)
        ∨ c.I < 0x200 then
      .err .access c
    else if c.LegacyMode then
      .ok { c with V := loadRegs c.V c.Memory c.I (b0 &&& 0x0F),
                   I := (c.I + (b0 &&& 0x0F) + 1) % 65536 } []
    else
      .ok { c with V := loadRegs c.V c.Memory c.I (b0 &&& 0x0F) } []
  else .err .badCode c

/-- Execution of one decoded instruction: the big `switch opcode[0] & 0xF0`
of `Tick`, applied to the state `c` whose program counter has already been
advanced by 2.  `b0`, `b1` are the two fetched opcode bytes.  Every
`return &SomeErr{}` of the source becomes `.err _ c` with the state at that
return; Go runtime faults (register-file index `V[x]` with `x ≥ 16` in the
`KeyFlags` lookup, modulo by a zero Width/Height, a stack index outside the
slice) become `.crash`.  The larger switch arms are factored into
`execSys`, `execGroup8`, `execDrw`, `execGroupE` and `execGroupF`. -/
def execOp (b0 b1 : Nat) (c : Chip8) : TickOut :=
  if b0 &&& 0xF0 = 0x00 then execSys b0 b1 c
  else if b0 &&& 0xF0 = 0x10 then
    .ok { c with PC := ((b0 &&& 0x0F) <<< 8) ||| b1 } []
  else if b0 &&& 0xF0 = 0x20 then
    if c.SP ≥ (c.Stack.length : Int) - 1 then .err .stackOverflow c
    else if c.SP + 1 < 0 then .crash
    else .ok { c with SP := c.SP + 1,
                      Stack := c.Stack.set (c.SP + 1).toNat c.PC,
                      PC := ((b0 &&& 0x0F) <<< 8) ||| b1 } []
  else if b0 &&& 0xF0 = 0x30 then
    if c.V.getD (b0 &&& 0x0F) 0 = b1 then
      .ok { c with PC := (c.PC + 2) % 65536 } []
    else .ok c []
  else if b0 &&& 0xF0 = 0x40 then
    if c.V.getD (b0 &&& 0x0F) 0 ≠ b1 then
      .ok { c with PC := (c.PC + 2) % 65536 } []
    else .ok c []
  else if b0 &&& 0xF0 = 0x50 then
    if c.V.getD (b0 &&& 0x0F) 0 = c.V.getD ((b1 &&& 0xF0) >>> 4) 0 then
      .ok { c with PC := (c.PC + 2) % 65536 } []
    else .ok c []
  else if b0 &&& 0xF0 = 0x60 then
    .ok { c with V := c.V.set (b0 &&& 0x0F) b1 } []
  else if b0 &&& 0xF0 = 0x70 then
    .ok { c with V := (c.V.set (b0 &&& 0x0F)
          ((c.V.getD (b0 &&& 0x0F) 0 + b1) % 256)) } []
  else if b0 &&& 0xF0 = 0x80 then execGroup8 b0 b1 c
  else if b0 &&& 0xF0 = 0x90 then
    -- SNE VX,VY: the whole 0x9 group compares two registers (the low
    -- nibble is not inspected).
    if c.V.getD (b0 &&& 0x0F) 0 ≠ c.V.getD ((b1 &&& 0xF0) >>> 4) 0 then
      .ok { c with PC := (c.PC + 2) % 65536 } []
    else .ok c []
  else if b0 &&& 0xF0 = 0xA0 then
    .ok { c with I := ((b0 &&& 0x0F) <<< 8) ||| b1 } []
  else if b0 &&& 0xF0 = 0xB0 then
    -- JP V0,NNN.  Go parses `uint16(b0&0x0F)<<8 | uint16(b1) + uint16(V[0])
    -- - 2` left to right at one precedence level, i.e.
    -- ((NNN + V[0]) - 2) in 16-bit arithmetic.
    .ok { c with
          PC := ((((b0 &&& 0x0F) <<< 8) ||| b1) + c.V.getD 0 0 + 65534)
                  % 65536 } []
  else if b0 &&& 0xF0 = 0xC0 then
    -- RND VX,NN with the injected random stream.
    .ok { c with V := c.V.set (b0 &&& 0x0F) ((c.Rng.headD 0 % 256) &&& b1),
                 Rng := c.Rng.tail } []
  else if b0 &&& 0xF0 = 0xD0 then execDrw b0 b1 c
  else if b0 &&& 0xF0 = 0xE0 then execGroupE b0 b1 c
  else if b0 &&& 0xF0 = 0xF0 then execGroupF b0 b1 c
  else .err .badCode c

/-- Fetch, execute and drain: the part of `Tick` after the pending-wait
check.  The fetch `c.Memory[c.PC : c.PC+2]` faults unless the 16-bit slice
bounds are ordered and within the buffer.  On an instruction error the
cycle returns at once — the timer drain is skipped. -/
def tickFetch (c : Chip8) (now : Nat) : TickOut :=
  let hi := (c.PC + 2) % 65536
  if hi ≤ c.Memory.length ∧ c.PC ≤ hi then
    let b0 := c.Memory.getD c.PC 0
    let b1 := c.Memory.getD (c.PC + 1) 0
    match execOp b0 b1 { c with PC := hi } with
    | .ok c2 evs =>
      let r := drainTimers c2 now
      .ok r.1 (evs ++ r.2)
    | .err e c2 => .err e c2
    | .crash => .crash
  else .crash

/-- One CPU cycle (`Tick`).  A pending key wait with no newly pressed key
returns immediately (no fetch, no timer drain).  When a new key is pressed
the wait is resolved and the cycle falls through to fetch and execute the
next instruction in the same call, as the source does.  A wait record
naming a register ≥ 16 would fault in the assignment `c.V[register]`. -/
def Tick (c : Chip8) (now : Nat) : TickOut :=
  match c.wii with
  | some ri =>
    let changed := c.Keyboard &&& ri.2
    if changed = 0 then .ok c []
    else if ri.1 < 16 then
      tickFetch { c with V := c.V.set ri.1 (pickKey changed), wii := none } now
    else .crash
  | none => tickFetch c now

/-- Iterate `Tick` up to `n` times, stopping at the first non-ok result. -/
def runTicks : Nat → Chip8 → Nat → TickOut
  | 0, c, _ => .ok c []
  | n + 1, c, now =>
    match Tick c now with
    | .ok c2 _ => runTicks n c2 now
    | r => r

/-- State component of a cycle result, when there is one. -/
def tickOutState : TickOut → Option Chip8
  | .ok c _ => some c
  | .err _ c => some c
  | .crash => none

/-- Error component of a cycle result, when there is one. -/
def tickOutErr : TickOut → Option Err
  | .err e _ => some e
  | _ => none

/-- Whether a cycle result is a success. -/
def tickOutIsOk : TickOut → Bool
  | .ok _ _ => true
  | _ => false

/-!
Decoder classifications.  The interpreter's `switch` in `Tick` and the
disassembler's `switch` in `DisassembleSimple` (`src/hachi/utils.go`) each
classify a 16-bit word; `execClass` and `disasmClass` transcribe the two
dispatch trees into a common tag type so they can be compared.  A
`BadCodeErr` return of the interpreter and an unreassigned `RawData` record
of the disassembler are both rendered as `.invalid`.
-/

/-- Common classification tags for the 35 operations, the generic syscall,
and the explicit invalid/raw fallback.  `.sneImm` is the register-immediate
skip (Go type `Sne`, 4XNN); `.sneReg` the register-register skip (Go type
`SneRegister`, 9XY0). -/
inductive OpClass where
  | sysCls
  | sysRet
  | sysOther
  | jpOp
  | callOp
  | seImm
  | sneImm
  | seReg
  | ldImm
  | addImm
  | ldReg
  | orReg
  | andReg
  | xorReg
  | addReg
  | subReg
  | shrReg
  | subnReg
  | shlReg
  | sneReg
  | ldIOp
  | jpV0Op
  | rndOp
  | drwOp
  | skpOp
  | sknpOp
  | ldDTOp
  | ldKeyOp
  | setDTOp
  | setSTOp
  | addIOp
  | ldFontOp
  | bcdOp
  | stMemOp
  | ldMemOp
  | invalid
deriving DecidableEq, Repr

/-- Classification performed by the interpreter's execution dispatch (the
`switch opcode[0] & 0xF0` of `Tick`, with its nested switches).  The whole
0x9 group executes the register-register skip; unknown opcodes in the
0x8/0xE/0xF groups and unmatched top nibbles return `BadCodeErr`
(`.invalid`).  The final wildcard arm is unreachable because
`b0 &&& 0xF0` is always one of the sixteen listed values. -/
def execClass (b0 b1 : Nat) : OpClass :=
  match b0 &&& 0xF0 with
  | 0x00 =>
    match ((b0 &&& 0x0F) <<< 8) ||| b1 with
    | 0x0E0 => .sysCls
    | 0x0EE => .sysRet
    | _ => .sysOther
  | 0x10 => .jpOp
  | 0x20 => .callOp
  | 0x30 => .seImm
  | 0x40 => .sneImm
  | 0x50 => .seReg
  | 0x60 => .ldImm
  | 0x70 => .addImm
  | 0x80 =>
    match b1 &&& 0x0F with
    | 0x0 => .ldReg
    | 0x1 => .orReg
    | 0x2 => .andReg
    | 0x3 => .xorReg
    | 0x4 => .addReg
    | 0x5 => .subReg
    | 0x6 => .shrReg
    | 0x7 => .subnReg
    | 0xE => .shlReg
    | _ => .invalid
  | 0x90 => .sneReg
  | 0xA0 => .ldIOp
  | 0xB0 => .jpV0Op
  | 0xC0 => .rndOp
  | 0xD0 => .drwOp
  | 0xE0 =>
    match b1 with
    | 0x9E => .skpOp
    | 0xA1 => .sknpOp
    | _ => .invalid
  | 0xF0 =>
    match b1 with
    | 0x07 => .ldDTOp
    | 0x0A => .ldKeyOp
    | 0x15 => .setDTOp
    | 0x18 => .setSTOp
    | 0x1E => .addIOp
    | 0x29 => .ldFontOp
    | 0x33 => .bcdOp
    | 0x55 => .stMemOp
    | 0x65 => .ldMemOp
    | _ => .invalid
  | _ => .invalid

/-- Classification performed by the disassembler (`DisassembleSimple`'s
`switch`, together with the sub-opcode annotation switch of `Sys.init`).
Note the 0x90 arm builds a `Sne` record — the register-immediate 4XNN type
— not the (never used) `SneRegister` type; groups without a default arm
leave the `RawData` fallback (`.invalid`). -/
def disasmClass (b0 b1 : Nat) : OpClass :=
  match b0 &&& 0xF0 with
  | 0x00 =>
    match ((b0 &&& 0x0F) <<< 8) ||| b1 with
    | 0x0E0 => .sysCls
    | 0x0EE => .sysRet
    | _ => .sysOther
  | 0x10 => .jpOp
  | 0x20 => .callOp
  | 0x30 => .seImm
  | 0x40 => .sneImm
  | 0x50 => .seReg
  | 0x60 => .ldImm
  | 0x70 => .addImm
  | 0x80 =>
    match b1 &&& 0x0F with
    | 0x0 => .ldReg
    | 0x1 => .orReg
    | 0x2 => .andReg
    | 0x3 => .xorReg
    | 0x4 => .addReg
    | 0x5 => .subReg
    | 0x6 => .shrReg
    | 0x7 => .subnReg
    | 0xE => .shlReg
    | _ => .invalid
  | 0x90 => .sneImm
  | 0xA0 => .ldIOp
  | 0xB0 => .jpV0Op
  | 0xC0 => .rndOp
  | 0xD0 => .drwOp
  | 0xE0 =>
    match b1 with
    | 0x9E => .skpOp
    | 0xA1 => .sknpOp
    | _ => .invalid
  | 0xF0 =>
    match b1 with
    | 0x07 => .ldDTOp
    | 0x0A => .ldKeyOp
    | 0x15 => .setDTOp
    | 0x18 => .setSTOp
    | 0x1E => .addIOp
    | 0x29 => .ldFontOp
    | 0x33 => .bcdOp
    | 0x55 => .stMemOp
    | 0x65 => .ldMemOp
    | _ => .invalid
  | _ => .invalid

/-- A disassembled instruction record: its classification and the raw bytes
it covers (`RawData.b`).  `Size()` of the source is the byte count. -/
structure Instr where
  cls : OpClass
  bytes : List Nat
deriving DecidableEq, Repr

/-- Byte length of a record (`Size()`). -/
def instrSize (i : Instr) : Nat :=
  i.bytes.length

/-- The decoding loop of `DisassembleSimple`: one record per 2-byte word.
The single-leftover-byte arm is unreachable because the caller rejects
odd-length input first. -/
def disLoop : List Nat → List Instr
  | b0 :: b1 :: rest => { cls := disasmClass b0 b1, bytes := [b0, b1] } :: disLoop rest
  | _ => []

/-- The odd-alignment error message of `DisassembleSimple`. -/
def alignmentMsg : String :=
  "Odd-aligned opcodes are not supported. Please use Dissassemble()."

/-- The simple disassembler (`DisassembleSimple`): rejects odd-length input,
otherwise decodes the buffer two bytes at a time. -/
def DisassembleSimple (b : List Nat) : Except String (List Instr) :=
  if b.length % 2 ≠ 0 then .error alignmentMsg
  else .ok (disLoop b)

/-!
Claim C1 — stack discipline under the default configuration.

The default machine carries a 4096-byte memory; its length and loaded
bytes are computed through list lemmas (`overwrite_length`,
`overwrite_getD`) rather than by brute normalisation.
-/

/-- Length is preserved by `overwrite`. -/
theorem overwrite_length (dst src : List Nat) (off : Nat) :
    (overwrite dst off src).length = dst.length := by
  simp only [overwrite, List.length_append, List.length_take,
    List.length_drop]
  omega

/-- Reading inside the overwritten window returns the source byte. -/
theorem overwrite_getD (dst src : List Nat) (off j : Nat)
    (h1 : off ≤ j) (h2 : j < off + src.length)
    (h3 : off + src.length ≤ dst.length) :
    (overwrite dst off src).getD j 0 = src.getD (j - off) 0 := by
  have hoff : off ≤ dst.length := by omega
  have hmin : off ⊓ dst.length = off := min_eq_left hoff
  simp only [overwrite, List.getD_eq_getElem?_getD]
  rw [List.getElem?_append_left (by
    simp only [List.length_append, List.length_take]
    omega)]
  rw [List.getElem?_append_right (by simp only [List.length_take]; omega)]
  rw [List.getElem?_take]
  simp only [List.length_take, hmin]
  rw [if_pos (by omega)]

/-- Stack slot count of the machine built from the default settings. -/
def defaultStackSlots : Nat :=
  match New DefaultSettings with
  | .ok c => c.Stack.length
  | .error _ => 0

/-- The explicit record produced by `New DefaultSettings`. -/
def defaultMachine : Chip8 :=
  { Memory := overwrite (List.replicate 0x1000 0) 0 fontData
    V := List.replicate 16 0
    I := 0
    Stack := List.replicate 6 0
    SP := -1
    PC := 0
    DT := 0
    ST := 0
    Keyboard := 0
    Screen := List.replicate 256 0
    Width := 64
    Height := 32
    TimerInterval := 16666666
    lastTimerUpdate := none
    wii := none
    LegacyMode := false
    Rng := [] }

/-- Construction with the default settings succeeds and yields
`defaultMachine` — in particular a 6-slot stack, not a 12-slot one. -/
theorem new_default_eq : New DefaultSettings = .ok defaultMachine := rfl

/-- Memory length of the default machine. -/
theorem defaultMachine_mem_length : defaultMachine.Memory.length = 4096 := by
  show (overwrite (List.replicate 0x1000 0) 0 fontData).length = 4096
  rw [overwrite_length, List.length_replicate]

/-- Default machine loaded with the self-call program `CALL 0x200`
(bytes 22 00) and started at 0x200 as `Load` does (the theorem below
verifies that `LoadRaw` produces exactly this memory). -/
def c1Machine : Chip8 :=
  { defaultMachine with
    Memory := overwrite defaultMachine.Memory 0x200 [0x22, 0x00],
    PC := 0x200 }

/-- Default machine loaded with the single instruction `RET` (bytes 00 EE)
and started at 0x200. -/
def c1RetMachine : Chip8 :=
  { defaultMachine with
    Memory := overwrite defaultMachine.Memory 0x200 [0x00, 0xEE],
    PC := 0x200 }

/-- Loading a 2-byte program into the default machine succeeds and
overwrites the two bytes at 0x200. -/
theorem loadRaw_default (p0 p1 : Nat) :
    LoadRaw defaultMachine [p0, p1]
      = .ok { defaultMachine with
              Memory := overwrite defaultMachine.Memory 0x200 [p0, p1] } := by
  unfold LoadRaw
  rw [if_neg (by
    simp only [List.length_cons, List.length_nil, defaultMachine_mem_length]
    omega)]

/-- Effect of one successful `CALL 0x200` cycle of the self-call program:
push the return address 0x202, jump back to 0x200 (the timer drain at
`now = 0` only initialises the timestamp). -/
def c1Step (c : Chip8) : Chip8 :=
  { c with SP := c.SP + 1,
           Stack := c.Stack.set (c.SP + 1).toNat 0x202,
           PC := 0x200,
           lastTimerUpdate := some 0 }

/-- One cycle of the self-call program when the stack still has room: the
`CALL` pushes the return address 0x202 and jumps back to 0x200. -/
theorem c1_call_tick (c : Chip8) (hw : c.wii = none) (hpc : c.PC = 0x200)
    (hlen : 0x202 ≤ c.Memory.length)
    (hb0 : c.Memory.getD 0x200 0 = 0x22)
    (hb1 : c.Memory.getD 0x201 0 = 0x00)
    (hsp : c.SP < (c.Stack.length : Int) - 1)
    (hsp2 : -1 ≤ c.SP)
    (hti : c.TimerInterval = 16666666)
    (hlt : c.lastTimerUpdate = none ∨ c.lastTimerUpdate = some 0) :
    Tick c 0 = .ok (c1Step c) [] := by
  unfold Tick tickFetch c1Step
  rw [hw, hpc]
  rw [show ((0x200 : Nat) + 2) % 65536 = 0x202 by decide]
  rw [show ((0x200 : Nat) + 1) = 0x201 by decide]
  rw [if_pos (by exact ⟨hlen, by decide⟩)]
  rw [hb0, hb1]
  simp only [execOp, show (0x22 : Nat) &&& 0xF0 = 0x20 from by decide,
    show (((0x22 : Nat) &&& 0x0F) <<< 8) ||| 0x00 = 0x200 from by decide]
  norm_num
  rw [if_neg (by omega), if_neg (by omega)]
  simp only [drainTimers, drainSteps, drainLoop]
  rcases hlt with h | h <;> simp only [h] <;> simp [hti, drainLoop]

/-- One cycle of the self-call program when the stack is full: the `CALL`
fails with `StackOverflowErr`, having only advanced the program counter. -/
theorem c1_call_tick_full (c : Chip8) (hw : c.wii = none) (hpc : c.PC = 0x200)
    (hlen : 0x202 ≤ c.Memory.length)
    (hb0 : c.Memory.getD 0x200 0 = 0x22)
    (hb1 : c.Memory.getD 0x201 0 = 0x00)
    (hsp : c.SP ≥ (c.Stack.length : Int) - 1) :
    Tick c 0 = .err .stackOverflow { c with PC := 0x202 } := by
  unfold Tick tickFetch
  rw [hw, hpc]
  rw [show ((0x200 : Nat) + 2) % 65536 = 0x202 by decide]
  rw [show ((0x200 : Nat) + 1) = 0x201 by decide]
  rw [if_pos (by exact ⟨hlen, by decide⟩)]
  rw [hb0, hb1]
  simp only [execOp, show (0x22 : Nat) &&& 0xF0 = 0x20 from by decide]
  norm_num
  rw [if_pos (by omega)]

/-- One cycle of the `RET` program on an empty stack: `RET` fails with
`StackOverflowErr` before popping. -/
theorem c1_ret_tick (c : Chip8) (hw : c.wii = none) (hpc : c.PC = 0x200)
    (hlen : 0x202 ≤ c.Memory.length)
    (hb0 : c.Memory.getD 0x200 0 = 0x00)
    (hb1 : c.Memory.getD 0x201 0 = 0xEE)
    (hsp : c.SP < 0) :
    Tick c 0 = .err .stackOverflow { c with PC := 0x202 } := by
  unfold Tick tickFetch
  rw [hw, hpc]
  rw [show ((0x200 : Nat) + 2) % 65536 = 0x202 by decide]
  rw [show ((0x200 : Nat) + 1) = 0x201 by decide]
  rw [if_pos (by exact ⟨hlen, by decide⟩)]
  rw [hb0, hb1]
  simp only [execOp, execSys,
    show (0x00 : Nat) &&& 0xF0 = 0x00 from by decide,
    show (((0x00 : Nat) &&& 0x0F) <<< 8) ||| 0xEE = 0x0EE from by decide]
  norm_num
  rw [if_pos (by omega)]

/-- C1: with the default configuration the claim fails on the code.  The
settings ask for stack size 12 and the `StackSize` field is documented as
"the maximum amount of nested calls", but realistic mode reinterprets
`StackSize` bytes as 16-bit words, so the constructed machine has a 6-slot
stack: starting from the empty stack, `CALL` succeeds exactly 6 times and
the 7th `CALL` fails with `StackOverflowErr` (stack pointer still 5 —
nothing was pushed).  `RET` on the empty stack does fail with
`StackOverflowErr` before popping (stack pointer still -1), as the claim
states. -/
theorem c1_default_stack_is_six :
    New DefaultSettings = .ok defaultMachine
    ∧ defaultStackSlots = 6
    ∧ LoadRaw defaultMachine [0x22, 0x00] = .ok { c1Machine with PC := 0 }
    ∧ c1Machine.SP = -1
    ∧ tickOutIsOk (runTicks 6 c1Machine 0) = true
    ∧ (tickOutState (runTicks 6 c1Machine 0)).map (·.SP) = some 5
    ∧ tickOutErr (runTicks 7 c1Machine 0) = some .stackOverflow
    ∧ (tickOutState (runTicks 7 c1Machine 0)).map (·.SP) = some 5
    ∧ tickOutErr (Tick c1RetMachine 0) = some .stackOverflow
    ∧ (tickOutState (Tick c1RetMachine 0)).map (·.SP) = some (-1) := by
  have hlen0 : 0x202 ≤ c1Machine.Memory.length := by
    show 0x202 ≤ (overwrite defaultMachine.Memory 0x200 [0x22, 0x00]).length
    rw [overwrite_length, defaultMachine_mem_length]
    omega
  have hb0 : c1Machine.Memory.getD 0x200 0 = 0x22 := by
    show (overwrite defaultMachine.Memory 0x200 [0x22, 0x00]).getD 0x200 0 = 0x22
    rw [overwrite_getD _ _ _ _ (by omega) (by simp)
      (by rw [defaultMachine_mem_length]; simp)]
    decide
  have hb1 : c1Machine.Memory.getD 0x201 0 = 0x00 := by
    show (overwrite defaultMachine.Memory 0x200 [0x22, 0x00]).getD 0x201 0 = 0x00
    rw [overwrite_getD _ _ _ _ (by omega) (by simp)
      (by rw [defaultMachine_mem_length]; simp)]
    decide
  have hlenR : 0x202 ≤ c1RetMachine.Memory.length := by
    show 0x202 ≤ (overwrite defaultMachine.Memory 0x200 [0x00, 0xEE]).length
    rw [overwrite_length, defaultMachine_mem_length]
    omega
  have hb0R : c1RetMachine.Memory.getD 0x200 0 = 0x00 := by
    show (overwrite defaultMachine.Memory 0x200 [0x00, 0xEE]).getD 0x200 0 = 0x00
    rw [overwrite_getD _ _ _ _ (by omega) (by simp)
      (by rw [defaultMachine_mem_length]; simp)]
    decide
  have hb1R : c1RetMachine.Memory.getD 0x201 0 = 0xEE := by
    show (overwrite defaultMachine.Memory 0x200 [0x00, 0xEE]).getD 0x201 0 = 0xEE
    rw [overwrite_getD _ _ _ _ (by omega) (by simp)
      (by rw [defaultMachine_mem_length]; simp)]
    decide
  have t1 := c1_call_tick c1Machine rfl rfl hlen0 hb0 hb1
    (by decide) (by decide) rfl (.inl rfl)
  have t2 := c1_call_tick (c1Step c1Machine) rfl rfl hlen0 hb0 hb1
    (by decide) (by decide) rfl (.inr rfl)
  have t3 := c1_call_tick (c1Step (c1Step c1Machine)) rfl rfl hlen0 hb0 hb1
    (by decide) (by decide) rfl (.inr rfl)
  have t4 := c1_call_tick (c1Step (c1Step (c1Step c1Machine))) rfl rfl
    hlen0 hb0 hb1 (by decide) (by decide) rfl (.inr rfl)
  have t5 := c1_call_tick (c1Step (c1Step (c1Step (c1Step c1Machine)))) rfl
    rfl hlen0 hb0 hb1 (by decide) (by decide) rfl (.inr rfl)
  have t6 := c1_call_tick
    (c1Step (c1Step (c1Step (c1Step (c1Step c1Machine))))) rfl rfl
    hlen0 hb0 hb1 (by decide) (by decide) rfl (.inr rfl)
  have t7 := c1_call_tick_full
    (c1Step (c1Step (c1Step (c1Step (c1Step (c1Step c1Machine)))))) rfl rfl
    hlen0 hb0 hb1 (by decide)
  have tR := c1_ret_tick c1RetMachine rfl rfl hlenR hb0R hb1R (by decide)
  refine ⟨rfl, by decide, loadRaw_default 0x22 0x00, rfl, ?_, ?_, ?_, ?_,
    ?_, ?_⟩ <;>
    simp only [runTicks, t1, t2, t3, t4, t5, t6, t7, tR, tickOutIsOk,
      tickOutErr, tickOutState, Option.map_some'] <;> decide

/-!
Claim C2 — resolution of a pending key wait.
-/

/-- State with a pending `FX0A` wait targeting `V3` (wait mask 0xFFFF: no
key was held when the wait was issued), keyboard now 0x0021 (keys 0 and 5
newly pressed), and the instruction `LD V4,7A` (bytes 64 7A) at the program
counter. -/
def c2Machine : Chip8 :=
  { Memory := [0x64, 0x7A], V := List.replicate 16 0, I := 0, Stack := [0],
    SP := -1, PC := 0, DT := 0, ST := 0, Keyboard := 0x21,
    Screen := List.replicate 16 0, Width := 8, Height := 16,
    TimerInterval := 16666666, lastTimerUpdate := some 0,
    wii := some (3, 0xFFFF), LegacyMode := false, Rng := [] }

/-- C2: the claim fails on the code in two ways at this input.  The lowest
newly pressed key is 0, but the selection loop treats key 0's number (0) as
"no key found" and keeps scanning, so `V3` receives 5; and after clearing
the wait the cycle falls through to fetch and execute `LD V4,7A`
immediately (`V4` = 0x7A and the program counter advances in the same
cycle), instead of doing no further work until the next cycle. -/
theorem c2_wait_resolution_bug :
    c2Machine.wii = some (3, 0xFFFF)
    ∧ c2Machine.Keyboard &&& 0xFFFF = 0x21
    ∧ c2Machine.V.getD 4 0 = 0
    ∧ (tickOutState (Tick c2Machine 0)).map
        (fun c => (c.V.getD 3 0, c.V.getD 4 0, c.wii, c.PC))
      = some (5, 0x7A, none, 2) := by
  refine ⟨by decide, of_decide_eq_true rfl, by decide,
    of_decide_eq_true rfl⟩

/-!
Claim C3 — a blocked key-wait cycle and the timer drain.
-/

/-- State with a pending wait, no newly pressed key, a non-zero delay
timer, and a whole timer interval elapsed since the last timer update. -/
def c3Machine : Chip8 :=
  { Memory := [0x64, 0x7A], V := List.replicate 16 0, I := 0, Stack := [0],
    SP := -1, PC := 0, DT := 5, ST := 2, Keyboard := 0,
    Screen := List.replicate 16 0, Width := 8, Height := 16,
    TimerInterval := 10, lastTimerUpdate := some 0,
    wii := some (3, 0xFFFF), LegacyMode := false, Rng := [] }

/-- C3 counterexample: at `now = 10` a full interval (10 ns) has elapsed,
so the claim requires `delayTimer` (5) and `soundTimer` (2) to be
decremented and a beep emitted — but the blocked cycle returns the state
completely unchanged with no events: the early `return nil` skips the
timer drain as well as the fetch. -/
theorem c3_blocked_wait_skips_timers :
    c3Machine.wii = some (3, 0xFFFF)
    ∧ c3Machine.Keyboard &&& 0xFFFF = 0
    ∧ c3Machine.DT = 5
    ∧ c3Machine.ST = 2
    ∧ c3Machine.TimerInterval = 10
    ∧ c3Machine.lastTimerUpdate = some 0
    ∧ Tick c3Machine 10 = .ok c3Machine [] := by
  refine ⟨by decide, of_decide_eq_true rfl, by decide,
    of_decide_eq_true rfl, by decide, of_decide_eq_true rfl,
    by decide⟩

/-- C3 amended: on every cycle where a pending key wait is set and
`keyboard AND waitMask` is zero, the whole cycle is skipped — no fetch, no
execution, and also no timer drain: the state is returned unchanged and no
event (in particular no beep) is emitted. -/
theorem c3_blocked_wait_is_total_noop (c : Chip8) (now r zb : Nat)
    (hw : c.wii = some (r, zb)) (hz : c.Keyboard &&& zb = 0) :
    Tick c now = .ok c [] := by
  unfold Tick
  rw [hw]
  simp [hz]

/-- Witness for the amended C3 statement at a concrete blocked state. -/
theorem c3_blocked_wait_is_total_noop_witness :
    Tick c3Machine 10 = .ok c3Machine [] :=
  c3_blocked_wait_is_total_noop c3Machine 10 3 0xFFFF rfl (by decide)

/-!
Claim C4 — the BNNN jump-with-offset target.
-/

/-- Machine with `JP V0,300` (bytes B3 00) at the program counter and
`V0` = 0x10. -/
def c4Machine : Chip8 :=
  { Memory := [0xB3, 0x00], V := (List.replicate 16 0).set 0 0x10, I := 0,
    Stack := [0], SP := -1, PC := 0, DT := 0, ST := 0, Keyboard := 0,
    Screen := List.replicate 16 0, Width := 8, Height := 16,
    TimerInterval := 16666666, lastTimerUpdate := some 0, wii := none,
    LegacyMode := false, Rng := [] }

/-- C4: the claim fails on the code.  For the word 0xB300 with `V0` = 0x10
the claim requires the program counter to end at NNN + V0 = 0x310, but the
expression in the source parses as `(NNN + V0) - 2` in 16-bit arithmetic
(`|`, `+` and `-` share one precedence level in Go and associate left), so
the cycle ends with the program counter at 0x30E — inconsistently with
`JP NNN` (1NNN), which sets the program counter to NNN exactly, and with
the disassembler's own description of BNNN ("Jumps to the address NNN plus
V0"). -/
theorem c4_jump_offset_off_by_two :
    c4Machine.V.getD 0 0 = 0x10
    ∧ c4Machine.Memory.getD 0 0 = 0xB3
    ∧ c4Machine.Memory.getD 1 0 = 0x00
    ∧ (tickOutState (Tick c4Machine 0)).map (·.PC) = some 0x30E
    ∧ (0x30E : Nat) ≠ 0x310 := by
  refine ⟨by decide, of_decide_eq_true rfl, by decide,
    of_decide_eq_true rfl, by decide⟩

/-!
Claim C5 — interpreter/disassembler classification agreement.
-/

/-- Machine at a 0x9-group word 0x9120 with `V1` = 0x20 (equal to the
immediate byte NN of the word) and `V2` = 0. -/
def c5Machine : Chip8 :=
  { Memory := [0x91, 0x20], V := (List.replicate 16 0).set 1 0x20, I := 0,
    Stack := [0], SP := -1, PC := 0, DT := 0, ST := 0, Keyboard := 0,
    Screen := List.replicate 16 0, Width := 8, Height := 16,
    TimerInterval := 16666666, lastTimerUpdate := some 0, wii := none,
    LegacyMode := false, Rng := [] }

/-- C5: the claim fails on the code.  For the word 0x9120 the interpreter
dispatches the register-register skip (`SNE VX,VY`, the 9XY0 operation)
while the disassembler builds a `Sne` record — the register-immediate 4XNN
classification (`SneRegister` exists in the source but is never used), so
the two classifications disagree.  The disagreement is semantic: with
`V1` = 0x20 = NN and `V2` = 0 the 4XNN reading would not skip, yet the
interpreter skips (program counter 4 after the cycle, not 2). -/
theorem c5_sne_group_classification_drift :
    execClass 0x91 0x20 = .sneReg
    ∧ disasmClass 0x91 0x20 = .sneImm
    ∧ OpClass.sneReg ≠ OpClass.sneImm
    ∧ c5Machine.V.getD 1 0 = 0x20
    ∧ (tickOutState (Tick c5Machine 0)).map (·.PC) = some 4 := by
  refine ⟨by decide, of_decide_eq_true rfl, by decide,
    of_decide_eq_true rfl, by decide⟩

/-!
Shared list access helpers.
-/

/-- Reading the just-written index of `List.set`. -/
theorem getD_set_self (l : List Nat) (i a : Nat) (h : i < l.length) :
    (l.set i a).getD i 0 = a := by
  rw [List.getD_eq_getElem?_getD, List.getElem?_set_self h]
  rfl

/-- Reading another index of `List.set`. -/
theorem getD_set_ne (l : List Nat) {i j : Nat} (a : Nat) (h : i ≠ j) :
    (l.set i a).getD j 0 = l.getD j 0 := by
  rw [List.getD_eq_getElem?_getD, List.getElem?_set_ne h,
    ← List.getD_eq_getElem?_getD]

/-!
Claim C7 — SUB (8XY5) and SUBN (8XY7) semantics.
-/

/-- Equation for the `SUB VX,VY` arm of the dispatch: flag first, then the
wrapping subtraction read from the already-updated register file. -/
theorem execOp_sub_eq (b0 b1 : Nat) (c : Chip8)
    (hg : b0 &&& 0xF0 = 0x80) (hs : b1 &&& 0x0F = 0x5) :
    execOp b0 b1 c
      = .ok { c with V :=
                (let w := if c.V.getD (b0 &&& 0x0F) 0
                               ≥ c.V.getD ((b1 &&& 0xF0) >>> 4) 0
                          then c.V.set 0xF 1 else c.V.set 0xF 0
                 w.set (b0 &&& 0x0F)
                   ((w.getD (b0 &&& 0x0F) 0 + 256
                       - w.getD ((b1 &&& 0xF0) >>> 4) 0) % 256)) } [] := by
  simp only [execOp]
  rw [if_neg (show ¬(b0 &&& 0xF0 = 0x00) by omega),
    if_neg (show ¬(b0 &&& 0xF0 = 0x10) by omega),
    if_neg (show ¬(b0 &&& 0xF0 = 0x20) by omega),
    if_neg (show ¬(b0 &&& 0xF0 = 0x30) by omega),
    if_neg (show ¬(b0 &&& 0xF0 = 0x40) by omega),
    if_neg (show ¬(b0 &&& 0xF0 = 0x50) by omega),
    if_neg (show ¬(b0 &&& 0xF0 = 0x60) by omega),
    if_neg (show ¬(b0 &&& 0xF0 = 0x70) by omega),
    if_pos hg]
  simp only [execGroup8]
  rw [if_neg (show ¬(b1 &&& 0x0F = 0x0) by omega),
    if_neg (show ¬(b1 &&& 0x0F = 0x1) by omega),
    if_neg (show ¬(b1 &&& 0x0F = 0x2) by omega),
    if_neg (show ¬(b1 &&& 0x0F = 0x3) by omega),
    if_neg (show ¬(b1 &&& 0x0F = 0x4) by omega),
    if_pos hs]
  split_ifs <;> rfl

/-- Equation for the `SUBN VX,VY` arm: inverted flag polarity and the
reversed wrapping subtraction. -/
theorem execOp_subn_eq (b0 b1 : Nat) (c : Chip8)
    (hg : b0 &&& 0xF0 = 0x80) (hs : b1 &&& 0x0F = 0x7) :
    execOp b0 b1 c
      = .ok { c with V :=
                (let w := if c.V.getD (b0 &&& 0x0F) 0
                               > c.V.getD ((b1 &&& 0xF0) >>> 4) 0
                          then c.V.set 0xF 0 else c.V.set 0xF 1
                 w.set (b0 &&& 0x0F)
                   ((w.getD ((b1 &&& 0xF0) >>> 4) 0 + 256
                       - w.getD (b0 &&& 0x0F) 0) % 256)) } [] := by
  simp only [execOp]
  rw [if_neg (show ¬(b0 &&& 0xF0 = 0x00) by omega),
    if_neg (show ¬(b0 &&& 0xF0 = 0x10) by omega),
    if_neg (show ¬(b0 &&& 0xF0 = 0x20) by omega),
    if_neg (show ¬(b0 &&& 0xF0 = 0x30) by omega),
    if_neg (show ¬(b0 &&& 0xF0 = 0x40) by omega),
    if_neg (show ¬(b0 &&& 0xF0 = 0x50) by omega),
    if_neg (show ¬(b0 &&& 0xF0 = 0x60) by omega),
    if_neg (show ¬(b0 &&& 0xF0 = 0x70) by omega),
    if_pos hg]
  simp only [execGroup8]
  rw [if_neg (show ¬(b1 &&& 0x0F = 0x0) by omega),
    if_neg (show ¬(b1 &&& 0x0F = 0x1) by omega),
    if_neg (show ¬(b1 &&& 0x0F = 0x2) by omega),
    if_neg (show ¬(b1 &&& 0x0F = 0x3) by omega),
    if_neg (show ¬(b1 &&& 0x0F = 0x4) by omega),
    if_neg (show ¬(b1 &&& 0x0F = 0x5) by omega),
    if_neg (show ¬(b1 &&& 0x0F = 0x6) by omega),
    if_pos hs]
  split_ifs <;> rfl

/-- C7: for all 8-bit operand values held in registers other than `V[0xF]`
(the flag register is overwritten by both instructions, so aliasing it as
an operand is excluded), `SUB` stores `(VX - VY) mod 256` in `VX` with
`V[0xF]` = 1 exactly when `VX ≥ VY` (no borrow), and `SUBN` stores
`(VY - VX) mod 256` in `VX` with the inverted polarity: `V[0xF]` = 0
exactly when `VX > VY` (borrow). -/
theorem c7_sub_subn_semantics :
    (∀ (b0 b1 : Nat) (c : Chip8),
      c.V.length = 16 →
      b0 &&& 0xF0 = 0x80 → b1 &&& 0x0F = 0x5 →
      b0 &&& 0x0F ≠ 0xF → (b1 &&& 0xF0) >>> 4 ≠ 0xF →
      c.V.getD (b0 &&& 0x0F) 0 < 256 →
      c.V.getD ((b1 &&& 0xF0) >>> 4) 0 < 256 →
      (tickOutState (execOp b0 b1 c)).map
          (fun c2 => (c2.V.getD (b0 &&& 0x0F) 0, c2.V.getD 0xF 0))
        = some
            ((c.V.getD (b0 &&& 0x0F) 0 + 256
                - c.V.getD ((b1 &&& 0xF0) >>> 4) 0) % 256,
             if c.V.getD ((b1 &&& 0xF0) >>> 4) 0 ≤ c.V.getD (b0 &&& 0x0F) 0
             then 1 else 0))
    ∧ (∀ (b0 b1 : Nat) (c : Chip8),
      c.V.length = 16 →
      b0 &&& 0xF0 = 0x80 → b1 &&& 0x0F = 0x7 →
      b0 &&& 0x0F ≠ 0xF → (b1 &&& 0xF0) >>> 4 ≠ 0xF →
      c.V.getD (b0 &&& 0x0F) 0 < 256 →
      c.V.getD ((b1 &&& 0xF0) >>> 4) 0 < 256 →
      (tickOutState (execOp b0 b1 c)).map
          (fun c2 => (c2.V.getD (b0 &&& 0x0F) 0, c2.V.getD 0xF 0))
        = some
            ((c.V.getD ((b1 &&& 0xF0) >>> 4) 0 + 256
                - c.V.getD (b0 &&& 0x0F) 0) % 256,
             if c.V.getD (b0 &&& 0x0F) 0 > c.V.getD ((b1 &&& 0xF0) >>> 4) 0
             then 0 else 1)) := by
  have hx16 : ∀ b : Nat, b &&& 0x0F < 16 :=
    fun b => Nat.lt_succ_of_le Nat.and_le_right
  constructor
  · intro b0 b1 c hlen hg hs hx hy hvx hvy
    rw [execOp_sub_eq b0 b1 c hg hs]
    simp only [tickOutState, Option.map_some', ge_iff_le]
    by_cases hc :
      c.V.getD ((b1 &&& 0xF0) >>> 4) 0 ≤ c.V.getD (b0 &&& 0x0F) 0 <;>
      [rw [if_pos hc, if_pos hc]; rw [if_neg hc, if_neg hc]] <;>
      rw [getD_set_self _ _ _ (by rw [List.length_set, hlen]; exact hx16 b0),
        getD_set_ne _ _ (Ne.symm hx),
        getD_set_ne _ _ (Ne.symm hy),
        getD_set_ne _ _ hx,
        getD_set_self _ _ _ (by rw [hlen]; decide)]
  · intro b0 b1 c hlen hg hs hx hy hvx hvy
    rw [execOp_subn_eq b0 b1 c hg hs]
    simp only [tickOutState, Option.map_some', gt_iff_lt]
    by_cases hc :
      c.V.getD ((b1 &&& 0xF0) >>> 4) 0 < c.V.getD (b0 &&& 0x0F) 0 <;>
      [rw [if_pos hc, if_pos hc]; rw [if_neg hc, if_neg hc]] <;>
      rw [getD_set_self _ _ _ (by rw [List.length_set, hlen]; exact hx16 b0),
        getD_set_ne _ _ (Ne.symm hy),
        getD_set_ne _ _ (Ne.symm hx),
        getD_set_ne _ _ hx,
        getD_set_self _ _ _ (by rw [hlen]; decide)]

/-- Machine for the C7 witness: `V1` = 5, `V2` = 10. -/
def c7Machine : Chip8 :=
  { Memory := [0x81, 0x25], V := ((List.replicate 16 0).set 1 5).set 2 10,
    I := 0, Stack := [0], SP := -1, PC := 0, DT := 0, ST := 0, Keyboard := 0,
    Screen := List.replicate 16 0, Width := 8, Height := 16,
    TimerInterval := 16666666, lastTimerUpdate := some 0, wii := none,
    LegacyMode := false, Rng := [] }

/-- Witness for C7 at `V1` = 5, `V2` = 10: `SUB V1,V2` gives `V1` = 0xFB
with borrow (`VF` = 0); `SUBN V1,V2` gives `V1` = 5 with `VF` = 1. -/
theorem c7_sub_subn_semantics_witness :
    c7Machine.V.getD 1 0 = 5
    ∧ c7Machine.V.getD 2 0 = 10
    ∧ (tickOutState (execOp 0x81 0x25 c7Machine)).map
        (fun c2 => (c2.V.getD (0x81 &&& 0x0F) 0, c2.V.getD 0xF 0))
      = some (0xFB, 0)
    ∧ (tickOutState (execOp 0x81 0x27 c7Machine)).map
        (fun c2 => (c2.V.getD (0x81 &&& 0x0F) 0, c2.V.getD 0xF 0))
      = some (5, 1) := by
  refine ⟨by decide, by decide, ?_, ?_⟩
  · exact (c7_sub_subn_semantics.1 0x81 0x25 c7Machine (by decide)
      (of_decide_eq_true rfl) (by decide) (of_decide_eq_true rfl)
      (by decide) (of_decide_eq_true rfl) (by decide)).trans
      (by decide)
  · exact (c7_sub_subn_semantics.2 0x81 0x27 c7Machine (of_decide_eq_true rfl)
      (by decide) (of_decide_eq_true rfl) (by decide)
      (of_decide_eq_true rfl) (by decide) (of_decide_eq_true rfl)).trans
      (by decide)

/-!
Claim C9 — the disassembler round trip and the alignment error.
-/

/-- The decoding loop yields one record per full 2-byte word. -/
theorem disLoop_length : ∀ b : List Nat, (disLoop b).length = b.length / 2
  | [] => by simp [disLoop]
  | [_] => by simp [disLoop]
  | _ :: _ :: rest => by
    simp only [disLoop, List.length_cons, disLoop_length rest]
    omega

/-- Every record of the decoding loop covers exactly 2 bytes. -/
theorem disLoop_sum :
    ∀ b : List Nat,
      ((disLoop b).map instrSize).sum = 2 * (disLoop b).length
  | [] => by simp [disLoop]
  | [_] => by simp [disLoop]
  | _ :: _ :: rest => by
    simp only [disLoop, List.map_cons, List.sum_cons, List.length_cons,
      disLoop_sum rest, instrSize, List.length_cons, List.length_nil]
    ring

/-- C9: on a buffer of even length L, `DisassembleSimple` succeeds with
exactly L/2 records whose byte lengths sum to L; it fails with the
unsupported-alignment error exactly when the length is odd (and then no
records are produced — the error constructor carries none). -/
theorem c9_disassemble_roundtrip (b : List Nat) :
    (b.length % 2 = 0 →
      DisassembleSimple b = .ok (disLoop b)
      ∧ (disLoop b).length = b.length / 2
      ∧ ((disLoop b).map instrSize).sum = b.length)
    ∧ (b.length % 2 ≠ 0 → DisassembleSimple b = .error alignmentMsg) := by
  constructor
  · intro h
    refine ⟨by unfold DisassembleSimple; rw [if_neg (by omega)],
      disLoop_length b, ?_⟩
    rw [disLoop_sum b, disLoop_length b]
    omega
  · intro h
    unfold DisassembleSimple
    rw [if_pos h]

/-- Witness for C9 on the even buffer `00 E0 12 34` and the odd buffer
`01 02 03`. -/
theorem c9_disassemble_roundtrip_witness :
    (DisassembleSimple [0x00, 0xE0, 0x12, 0x34]
        = .ok (disLoop [0x00, 0xE0, 0x12, 0x34])
      ∧ (disLoop [0x00, 0xE0, 0x12, 0x34]).length
          = [0x00, 0xE0, 0x12, 0x34].length / 2
      ∧ ((disLoop [0x00, 0xE0, 0x12, 0x34]).map instrSize).sum
          = [0x00, 0xE0, 0x12, 0x34].length)
    ∧ DisassembleSimple [0x01, 0x02, 0x03] = .error alignmentMsg := by
  exact ⟨(c9_disassemble_roundtrip [0x00, 0xE0, 0x12, 0x34]).1 (by decide),
    (c9_disassemble_roundtrip [0x01, 0x02, 0x03]).2 (by decide)⟩


/-!
C6: error atomicity.  Whenever a cycle that starts with no pending
key-wait returns one of the defined errors, the returned state differs
from the cycle's starting state only in the program counter, which has
been advanced by 2 (the pre-increment the source performs right after the
fetch).  The per-group lemmas below show each `.err` return of the switch
carries the state unchanged from entry to the instruction body.
-/

theorem execSys_err (b0 b1 : Nat) (c c2 : Chip8) (e : Err)
    (h : execSys b0 b1 c = .err e c2) : c2 = c := by
  unfold execSys at h
  by_cases hc0 : ((b0 &&& 0x0F) <<< 8) ||| b1 = 0x0E0
  · rw [if_pos hc0] at h
    repeat first
      | (injection h with hA hB; exact hB.symm)
      | exact TickOut.noConfusion h
      | split at h
  · rw [if_neg hc0] at h
    by_cases hc1 : ((b0 &&& 0x0F) <<< 8) ||| b1 = 0x0EE
    · rw [if_pos hc1] at h
      repeat first
        | (injection h with hA hB; exact hB.symm)
        | exact TickOut.noConfusion h
        | split at h
    · rw [if_neg hc1] at h
      repeat first
        | (injection h with hA hB; exact hB.symm)
        | exact TickOut.noConfusion h
        | split at h

theorem execGroup8_err (b0 b1 : Nat) (c c2 : Chip8) (e : Err)
    (h : execGroup8 b0 b1 c = .err e c2) : c2 = c := by
  unfold execGroup8 at h
  by_cases hc0 : b1 &&& 0x0F = 0x0
  · rw [if_pos hc0] at h
    repeat first
      | (injection h with hA hB; exact hB.symm)
      | exact TickOut.noConfusion h
      | split at h
  · rw [if_neg hc0] at h
    by_cases hc1 : b1 &&& 0x0F = 0x1
    · rw [if_pos hc1] at h
      repeat first
        | (injection h with hA hB; exact hB.symm)
        | exact TickOut.noConfusion h
        | split at h
    · rw [if_neg hc1] at h
      by_cases hc2 : b1 &&& 0x0F = 0x2
      · rw [if_pos hc2] at h
        repeat first
          | (injection h with hA hB; exact hB.symm)
          | exact TickOut.noConfusion h
          | split at h
      · rw [if_neg hc2] at h
        by_cases hc3 : b1 &&& 0x0F = 0x3
        · rw [if_pos hc3] at h
          repeat first
            | (injection h with hA hB; exact hB.symm)
            | exact TickOut.noConfusion h
            | split at h
        · rw [if_neg hc3] at h
          by_cases hc4 : b1 &&& 0x0F = 0x4
          · rw [if_pos hc4] at h
            repeat first
              | (injection h with hA hB; exact hB.symm)
              | exact TickOut.noConfusion h
              | split at h
          · rw [if_neg hc4] at h
            by_cases hc5 : b1 &&& 0x0F = 0x5
            · rw [if_pos hc5] at h
              repeat first
                | (injection h with hA hB; exact hB.symm)
                | exact TickOut.noConfusion h
                | split at h
            · rw [if_neg hc5] at h
              by_cases hc6 : b1 &&& 0x0F = 0x6
              · rw [if_pos hc6] at h
                repeat first
                  | (injection h with hA hB; exact hB.symm)
                  | exact TickOut.noConfusion h
                  | split at h
              · rw [if_neg hc6] at h
                by_cases hc7 : b1 &&& 0x0F = 0x7
                · rw [if_pos hc7] at h
                  repeat first
                    | (injection h with hA hB; exact hB.symm)
                    | exact TickOut.noConfusion h
                    | split at h
                · rw [if_neg hc7] at h
                  by_cases hc8 : b1 &&& 0x0F = 0xE
                  · rw [if_pos hc8] at h
                    repeat first
                      | (injection h with hA hB; exact hB.symm)
                      | exact TickOut.noConfusion h
                      | split at h
                  · rw [if_neg hc8] at h
                    repeat first
                      | (injection h with hA hB; exact hB.symm)
                      | exact TickOut.noConfusion h
                      | split at h

theorem execDrw_err (b0 b1 : Nat) (c c2 : Chip8) (e : Err)
    (h : execDrw b0 b1 c = .err e c2) : c2 = c := by
  unfold execDrw at h
  by_cases hc0 : c.Width = 0 ∨ c.Height = 0
  · rw [if_pos hc0] at h
    repeat first
      | (injection h with hA hB; exact hB.symm)
      | exact TickOut.noConfusion h
      | split at h
  · rw [if_neg hc0] at h
    by_cases hc1 : 0xFFFF - c.I < b1 &&& 0x0F
    · rw [if_pos hc1] at h
      repeat first
        | (injection h with hA hB; exact hB.symm)
        | exact TickOut.noConfusion h
        | split at h
    · rw [if_neg hc1] at h
      by_cases hc2 : (c.I : Int) + ((b1 &&& 0x0F : Nat) : Int) - 1 ≥ (c.Memory.length : Int)
      · rw [if_pos hc2] at h
        repeat first
          | (injection h with hA hB; exact hB.symm)
          | exact TickOut.noConfusion h
          | split at h
      · rw [if_neg hc2] at h
        repeat first
          | (injection h with hA hB; exact hB.symm)
          | exact TickOut.noConfusion h
          | split at h

theorem execGroupE_err (b0 b1 : Nat) (c c2 : Chip8) (e : Err)
    (h : execGroupE b0 b1 c = .err e c2) : c2 = c := by
  unfold execGroupE at h
  by_cases hc0 : b1 = 0x9E
  · rw [if_pos hc0] at h
    repeat first
      | (injection h with hA hB; exact hB.symm)
      | exact TickOut.noConfusion h
      | split at h
  · rw [if_neg hc0] at h
    by_cases hc1 : b1 = 0xA1
    · rw [if_pos hc1] at h
      repeat first
        | (injection h with hA hB; exact hB.symm)
        | exact TickOut.noConfusion h
        | split at h
    · rw [if_neg hc1] at h
      repeat first
        | (injection h with hA hB; exact hB.symm)
        | exact TickOut.noConfusion h
        | split at h

theorem execGroupF_err (b0 b1 : Nat) (c c2 : Chip8) (e : Err)
    (h : execGroupF b0 b1 c = .err e c2) : c2 = c := by
  unfold execGroupF at h
  by_cases hc0 : b1 = 0x07
  · rw [if_pos hc0] at h
    repeat first
      | (injection h with hA hB; exact hB.symm)
      | exact TickOut.noConfusion h
      | split at h
  · rw [if_neg hc0] at h
    by_cases hc1 : b1 = 0x0A
    · rw [if_pos hc1] at h
      repeat first
        | (injection h with hA hB; exact hB.symm)
        | exact TickOut.noConfusion h
        | split at h
    · rw [if_neg hc1] at h
      by_cases hc2 : b1 = 0x15
      · rw [if_pos hc2] at h
        repeat first
          | (injection h with hA hB; exact hB.symm)
          | exact TickOut.noConfusion h
          | split at h
      · rw [if_neg hc2] at h
        by_cases hc3 : b1 = 0x18
        · rw [if_pos hc3] at h
          repeat first
            | (injection h with hA hB; exact hB.symm)
            | exact TickOut.noConfusion h
            | split at h
        · rw [if_neg hc3] at h
          by_cases hc4 : b1 = 0x1E
          · rw [if_pos hc4] at h
            repeat first
              | (injection h with hA hB; exact hB.symm)
              | exact TickOut.noConfusion h
              | split at h
          · rw [if_neg hc4] at h
            by_cases hc5 : b1 = 0x29
            · rw [if_pos hc5] at h
              repeat first
                | (injection h with hA hB; exact hB.symm)
                | exact TickOut.noConfusion h
                | split at h
            · rw [if_neg hc5] at h
              by_cases hc6 : b1 = 0x33
              · rw [if_pos hc6] at h
                repeat first
                  | (injection h with hA hB; exact hB.symm)
                  | exact TickOut.noConfusion h
                  | split at h
              · rw [if_neg hc6] at h
                by_cases hc7 : b1 = 0x55
                · rw [if_pos hc7] at h
                  repeat first
                    | (injection h with hA hB; exact hB.symm)
                    | exact TickOut.noConfusion h
                    | split at h
                · rw [if_neg hc7] at h
                  by_cases hc8 : b1 = 0x65
                  · rw [if_pos hc8] at h
                    repeat first
                      | (injection h with hA hB; exact hB.symm)
                      | exact TickOut.noConfusion h
                      | split at h
                  · rw [if_neg hc8] at h
                    repeat first
                      | (injection h with hA hB; exact hB.symm)
                      | exact TickOut.noConfusion h
                      | split at h

theorem execOp_err_state (b0 b1 : Nat) (c c2 : Chip8) (e : Err)
    (h : execOp b0 b1 c = .err e c2) : c2 = c := by
  unfold execOp at h
  by_cases hc0 : b0 &&& 0xF0 = 0x00
  · rw [if_pos hc0] at h
    first
      | exact execSys_err _ _ _ _ _ h
      | exact execGroup8_err _ _ _ _ _ h
      | exact execDrw_err _ _ _ _ _ h
      | exact execGroupE_err _ _ _ _ _ h
      | exact execGroupF_err _ _ _ _ _ h
      | repeat first
          | (injection h with hA hB; exact hB.symm)
          | exact TickOut.noConfusion h
          | split at h
  · rw [if_neg hc0] at h
    by_cases hc1 : b0 &&& 0xF0 = 0x10
    · rw [if_pos hc1] at h
      first
        | exact execSys_err _ _ _ _ _ h
        | exact execGroup8_err _ _ _ _ _ h
        | exact execDrw_err _ _ _ _ _ h
        | exact execGroupE_err _ _ _ _ _ h
        | exact execGroupF_err _ _ _ _ _ h
        | repeat first
            | (injection h with hA hB; exact hB.symm)
            | exact TickOut.noConfusion h
            | split at h
    · rw [if_neg hc1] at h
      by_cases hc2 : b0 &&& 0xF0 = 0x20
      · rw [if_pos hc2] at h
        first
          | exact execSys_err _ _ _ _ _ h
          | exact execGroup8_err _ _ _ _ _ h
          | exact execDrw_err _ _ _ _ _ h
          | exact execGroupE_err _ _ _ _ _ h
          | exact execGroupF_err _ _ _ _ _ h
          | repeat first
              | (injection h with hA hB; exact hB.symm)
              | exact TickOut.noConfusion h
              | split at h
      · rw [if_neg hc2] at h
        by_cases hc3 : b0 &&& 0xF0 = 0x30
        · rw [if_pos hc3] at h
          first
            | exact execSys_err _ _ _ _ _ h
            | exact execGroup8_err _ _ _ _ _ h
            | exact execDrw_err _ _ _ _ _ h
            | exact execGroupE_err _ _ _ _ _ h
            | exact execGroupF_err _ _ _ _ _ h
            | repeat first
                | (injection h with hA hB; exact hB.symm)
                | exact TickOut.noConfusion h
                | split at h
        · rw [if_neg hc3] at h
          by_cases hc4 : b0 &&& 0xF0 = 0x40
          · rw [if_pos hc4] at h
            first
              | exact execSys_err _ _ _ _ _ h
              | exact execGroup8_err _ _ _ _ _ h
              | exact execDrw_err _ _ _ _ _ h
              | exact execGroupE_err _ _ _ _ _ h
              | exact execGroupF_err _ _ _ _ _ h
              | repeat first
                  | (injection h with hA hB; exact hB.symm)
                  | exact TickOut.noConfusion h
                  | split at h
          · rw [if_neg hc4] at h
            by_cases hc5 : b0 &&& 0xF0 = 0x50
            · rw [if_pos hc5] at h
              first
                | exact execSys_err _ _ _ _ _ h
                | exact execGroup8_err _ _ _ _ _ h
                | exact execDrw_err _ _ _ _ _ h
                | exact execGroupE_err _ _ _ _ _ h
                | exact execGroupF_err _ _ _ _ _ h
                | repeat first
                    | (injection h with hA hB; exact hB.symm)
                    | exact TickOut.noConfusion h
                    | split at h
            · rw [if_neg hc5] at h
              by_cases hc6 : b0 &&& 0xF0 = 0x60
              · rw [if_pos hc6] at h
                first
                  | exact execSys_err _ _ _ _ _ h
                  | exact execGroup8_err _ _ _ _ _ h
                  | exact execDrw_err _ _ _ _ _ h
                  | exact execGroupE_err _ _ _ _ _ h
                  | exact execGroupF_err _ _ _ _ _ h
                  | repeat first
                      | (injection h with hA hB; exact hB.symm)
                      | exact TickOut.noConfusion h
                      | split at h
              · rw [if_neg hc6] at h
                by_cases hc7 : b0 &&& 0xF0 = 0x70
                · rw [if_pos hc7] at h
                  first
                    | exact execSys_err _ _ _ _ _ h
                    | exact execGroup8_err _ _ _ _ _ h
                    | exact execDrw_err _ _ _ _ _ h
                    | exact execGroupE_err _ _ _ _ _ h
                    | exact execGroupF_err _ _ _ _ _ h
                    | repeat first
                        | (injection h with hA hB; exact hB.symm)
                        | exact TickOut.noConfusion h
                        | split at h
                · rw [if_neg hc7] at h
                  by_cases hc8 : b0 &&& 0xF0 = 0x80
                  · rw [if_pos hc8] at h
                    first
                      | exact execSys_err _ _ _ _ _ h
                      | exact execGroup8_err _ _ _ _ _ h
                      | exact execDrw_err _ _ _ _ _ h
                      | exact execGroupE_err _ _ _ _ _ h
                      | exact execGroupF_err _ _ _ _ _ h
                      | repeat first
                          | (injection h with hA hB; exact hB.symm)
                          | exact TickOut.noConfusion h
                          | split at h
                  · rw [if_neg hc8] at h
                    by_cases hc9 : b0 &&& 0xF0 = 0x90
                    · rw [if_pos hc9] at h
                      first
                        | exact execSys_err _ _ _ _ _ h
                        | exact execGroup8_err _ _ _ _ _ h
                        | exact execDrw_err _ _ _ _ _ h
                        | exact execGroupE_err _ _ _ _ _ h
                        | exact execGroupF_err _ _ _ _ _ h
                        | repeat first
                            | (injection h with hA hB; exact hB.symm)
                            | exact TickOut.noConfusion h
                            | split at h
                    · rw [if_neg hc9] at h
                      by_cases hc10 : b0 &&& 0xF0 = 0xA0
                      · rw [if_pos hc10] at h
                        first
                          | exact execSys_err _ _ _ _ _ h
                          | exact execGroup8_err _ _ _ _ _ h
                          | exact execDrw_err _ _ _ _ _ h
                          | exact execGroupE_err _ _ _ _ _ h
                          | exact execGroupF_err _ _ _ _ _ h
                          | repeat first
                              | (injection h with hA hB; exact hB.symm)
                              | exact TickOut.noConfusion h
                              | split at h
                      · rw [if_neg hc10] at h
                        by_cases hc11 : b0 &&& 0xF0 = 0xB0
                        · rw [if_pos hc11] at h
                          first
                            | exact execSys_err _ _ _ _ _ h
                            | exact execGroup8_err _ _ _ _ _ h
                            | exact execDrw_err _ _ _ _ _ h
                            | exact execGroupE_err _ _ _ _ _ h
                            | exact execGroupF_err _ _ _ _ _ h
                            | repeat first
                                | (injection h with hA hB; exact hB.symm)
                                | exact TickOut.noConfusion h
                                | split at h
                        · rw [if_neg hc11] at h
                          by_cases hc12 : b0 &&& 0xF0 = 0xC0
                          · rw [if_pos hc12] at h
                            first
                              | exact execSys_err _ _ _ _ _ h
                              | exact execGroup8_err _ _ _ _ _ h
                              | exact execDrw_err _ _ _ _ _ h
                              | exact execGroupE_err _ _ _ _ _ h
                              | exact execGroupF_err _ _ _ _ _ h
                              | repeat first
                                  | (injection h with hA hB; exact hB.symm)
                                  | exact TickOut.noConfusion h
                                  | split at h
                          · rw [if_neg hc12] at h
                            by_cases hc13 : b0 &&& 0xF0 = 0xD0
                            · rw [if_pos hc13] at h
                              first
                                | exact execSys_err _ _ _ _ _ h
                                | exact execGroup8_err _ _ _ _ _ h
                                | exact execDrw_err _ _ _ _ _ h
                                | exact execGroupE_err _ _ _ _ _ h
                                | exact execGroupF_err _ _ _ _ _ h
                                | repeat first
                                    | (injection h with hA hB; exact hB.symm)
                                    | exact TickOut.noConfusion h
                                    | split at h
                            · rw [if_neg hc13] at h
                              by_cases hc14 : b0 &&& 0xF0 = 0xE0
                              · rw [if_pos hc14] at h
                                first
                                  | exact execSys_err _ _ _ _ _ h
                                  | exact execGroup8_err _ _ _ _ _ h
                                  | exact execDrw_err _ _ _ _ _ h
                                  | exact execGroupE_err _ _ _ _ _ h
                                  | exact execGroupF_err _ _ _ _ _ h
                                  | repeat first
                                      | (injection h with hA hB; exact hB.symm)
                                      | exact TickOut.noConfusion h
                                      | split at h
                              · rw [if_neg hc14] at h
                                by_cases hc15 : b0 &&& 0xF0 = 0xF0
                                · rw [if_pos hc15] at h
                                  first
                                    | exact execSys_err _ _ _ _ _ h
                                    | exact execGroup8_err _ _ _ _ _ h
                                    | exact execDrw_err _ _ _ _ _ h
                                    | exact execGroupE_err _ _ _ _ _ h
                                    | exact execGroupF_err _ _ _ _ _ h
                                    | repeat first
                                        | (injection h with hA hB; exact hB.symm)
                                        | exact TickOut.noConfusion h
                                        | split at h
                                · rw [if_neg hc15] at h
                                  first
                                    | exact execSys_err _ _ _ _ _ h
                                    | exact execGroup8_err _ _ _ _ _ h
                                    | exact execDrw_err _ _ _ _ _ h
                                    | exact execGroupE_err _ _ _ _ _ h
                                    | exact execGroupF_err _ _ _ _ _ h
                                    | repeat first
                                        | (injection h with hA hB; exact hB.symm)
                                        | exact TickOut.noConfusion h
                                        | split at h

/-- A two-byte machine whose single instruction word 0xFFFF is an invalid
0xF-group opcode, driving `Tick` into the `.err .badCode` return. -/
def c6Machine : Chip8 :=
  { Memory := [0xFF, 0xFF]
    V := List.replicate 16 0
    I := 0
    Stack := []
    SP := -1
    PC := 0
    DT := 0
    ST := 0
    Keyboard := 0
    Screen := []
    Width := 8
    Height := 1
    TimerInterval := 1
    lastTimerUpdate := none
    wii := none
    LegacyMode := false
    Rng := [] }

/-- C6: on every cycle that starts with no pending key-wait, if `Tick`
returns an error (stack overflow, invalid instruction, arithmetic
overflow or invalid memory access), the returned state is the starting
state with the program counter advanced by 2 (as a 16-bit value) and
nothing else changed: every fallible check of the instruction body runs
before any register, memory, stack, screen or timer mutation, and the
timer drain is skipped on the error path. -/
theorem c6_error_atomicity (c c2 : Chip8) (now : Nat) (e : Err)
    (hw : c.wii = none) (h : Tick c now = .err e c2) :
    c2 = { c with PC := (c.PC + 2) % 65536 } := by
  unfold Tick at h
  rw [hw] at h
  unfold tickFetch at h
  simp only [] at h
  by_cases hg : (c.PC + 2) % 65536 ≤ c.Memory.length
      ∧ c.PC ≤ (c.PC + 2) % 65536
  · rw [if_pos hg] at h
    split at h
    · exact TickOut.noConfusion h
    · rename_i e3 c3 heq
      injection h with hA hB
      subst hB
      rw [execOp_err_state _ _ _ _ _ heq]
    · exact TickOut.noConfusion h
  · rw [if_neg hg] at h
    exact TickOut.noConfusion h

/-- Witness: the invalid instruction 0xFFFF errors out with `badCode` and
the atomicity theorem applies, pinning the post-error state. -/
theorem c6_error_atomicity_witness :
    c6Machine.wii = none ∧
    Tick c6Machine 0 = .err .badCode { c6Machine with PC := 2 } ∧
    { c6Machine with PC := 2 }
      = { c6Machine with PC := (c6Machine.PC + 2) % 65536 } :=
  ⟨rfl, by decide,
   c6_error_atomicity c6Machine { c6Machine with PC := 2 } 0 .badCode rfl
     (by decide)⟩

/-!
C10: totality of the cycle step.  The fetch `Memory[PC:PC+2]` and the
key-flag lookup `KeyFlags[V[X]]` in `EX9E`/`EXA1` are the only unguarded
accesses; the lemmas below show every other fault source is guarded, so
the cycle is total exactly under the fetch-fits and `V[X] ≤ 0xF`
precondition.
-/

theorem execSys_no_crash (b0 b1 : Nat) (c : Chip8)
    (hSP1 : -1 ≤ c.SP) (hSP2 : c.SP < (c.Stack.length : Int)) :
    execSys b0 b1 c ≠ .crash := by
  intro h
  unfold execSys at h
  repeat first
    | exact TickOut.noConfusion h
    | split at h
    | omega

theorem execDrw_no_crash (b0 b1 : Nat) (c : Chip8)
    (hW : 0 < c.Width) (hH : 0 < c.Height) :
    execDrw b0 b1 c ≠ .crash := by
  intro h
  unfold execDrw at h
  rw [if_neg (by rintro (h0 | h0) <;> omega)] at h
  repeat first
    | exact TickOut.noConfusion h
    | split at h

theorem execGroupE_no_crash (b0 b1 : Nat) (c : Chip8)
    (hV : c.V.getD (b0 &&& 0x0F) 0 < 16) :
    execGroupE b0 b1 c ≠ .crash := by
  intro h
  unfold execGroupE at h
  repeat first
    | exact TickOut.noConfusion h
    | split at h
    | omega
theorem execGroup8_no_crash (b0 b1 : Nat) (c : Chip8) :
    execGroup8 b0 b1 c ≠ .crash := by
  intro h
  unfold execGroup8 at h
  by_cases hc0 : b1 &&& 0x0F = 0x0
  · rw [if_pos hc0] at h
    repeat first
      | exact TickOut.noConfusion h
      | split at h
      | omega
  · rw [if_neg hc0] at h
    by_cases hc1 : b1 &&& 0x0F = 0x1
    · rw [if_pos hc1] at h
      repeat first
        | exact TickOut.noConfusion h
        | split at h
        | omega
    · rw [if_neg hc1] at h
      by_cases hc2 : b1 &&& 0x0F = 0x2
      · rw [if_pos hc2] at h
        repeat first
          | exact TickOut.noConfusion h
          | split at h
          | omega
      · rw [if_neg hc2] at h
        by_cases hc3 : b1 &&& 0x0F = 0x3
        · rw [if_pos hc3] at h
          repeat first
            | exact TickOut.noConfusion h
            | split at h
            | omega
        · rw [if_neg hc3] at h
          by_cases hc4 : b1 &&& 0x0F = 0x4
          · rw [if_pos hc4] at h
            repeat first
              | exact TickOut.noConfusion h
              | split at h
              | omega
          · rw [if_neg hc4] at h
            by_cases hc5 : b1 &&& 0x0F = 0x5
            · rw [if_pos hc5] at h
              repeat first
                | exact TickOut.noConfusion h
                | split at h
                | omega
            · rw [if_neg hc5] at h
              by_cases hc6 : b1 &&& 0x0F = 0x6
              · rw [if_pos hc6] at h
                repeat first
                  | exact TickOut.noConfusion h
                  | split at h
                  | omega
              · rw [if_neg hc6] at h
                by_cases hc7 : b1 &&& 0x0F = 0x7
                · rw [if_pos hc7] at h
                  repeat first
                    | exact TickOut.noConfusion h
                    | split at h
                    | omega
                · rw [if_neg hc7] at h
                  by_cases hc8 : b1 &&& 0x0F = 0xE
                  · rw [if_pos hc8] at h
                    repeat first
                      | exact TickOut.noConfusion h
                      | split at h
                      | omega
                  · rw [if_neg hc8] at h
                    repeat first
                      | exact TickOut.noConfusion h
                      | split at h
                      | omega

theorem execGroupF_no_crash (b0 b1 : Nat) (c : Chip8) :
    execGroupF b0 b1 c ≠ .crash := by
  intro h
  unfold execGroupF at h
  by_cases hc0 : b1 = 0x07
  · rw [if_pos hc0] at h
    repeat first
      | exact TickOut.noConfusion h
      | split at h
      | omega
  · rw [if_neg hc0] at h
    by_cases hc1 : b1 = 0x0A
    · rw [if_pos hc1] at h
      repeat first
        | exact TickOut.noConfusion h
        | split at h
        | omega
    · rw [if_neg hc1] at h
      by_cases hc2 : b1 = 0x15
      · rw [if_pos hc2] at h
        repeat first
          | exact TickOut.noConfusion h
          | split at h
          | omega
      · rw [if_neg hc2] at h
        by_cases hc3 : b1 = 0x18
        · rw [if_pos hc3] at h
          repeat first
            | exact TickOut.noConfusion h
            | split at h
            | omega
        · rw [if_neg hc3] at h
          by_cases hc4 : b1 = 0x1E
          · rw [if_pos hc4] at h
            repeat first
              | exact TickOut.noConfusion h
              | split at h
              | omega
          · rw [if_neg hc4] at h
            by_cases hc5 : b1 = 0x29
            · rw [if_pos hc5] at h
              repeat first
                | exact TickOut.noConfusion h
                | split at h
                | omega
            · rw [if_neg hc5] at h
              by_cases hc6 : b1 = 0x33
              · rw [if_pos hc6] at h
                repeat first
                  | exact TickOut.noConfusion h
                  | split at h
                  | omega
              · rw [if_neg hc6] at h
                by_cases hc7 : b1 = 0x55
                · rw [if_pos hc7] at h
                  repeat first
                    | exact TickOut.noConfusion h
                    | split at h
                    | omega
                · rw [if_neg hc7] at h
                  by_cases hc8 : b1 = 0x65
                  · rw [if_pos hc8] at h
                    repeat first
                      | exact TickOut.noConfusion h
                      | split at h
                      | omega
                  · rw [if_neg hc8] at h
                    repeat first
                      | exact TickOut.noConfusion h
                      | split at h
                      | omega

theorem execOp_no_crash (b0 b1 : Nat) (c : Chip8)
    (hSP1 : -1 ≤ c.SP) (hSP2 : c.SP < (c.Stack.length : Int))
    (hW : 0 < c.Width) (hH : 0 < c.Height)
    (hE : b0 &&& 0xF0 = 0xE0 → c.V.getD (b0 &&& 0x0F) 0 < 16) :
    execOp b0 b1 c ≠ .crash := by
  intro h
  unfold execOp at h
  by_cases hc0 : b0 &&& 0xF0 = 0x00
  · rw [if_pos hc0] at h
    first
      | exact execSys_no_crash _ _ _ hSP1 hSP2 h
      | exact execGroup8_no_crash _ _ _ h
      | exact execDrw_no_crash _ _ _ hW hH h
      | exact execGroupE_no_crash _ _ _ (hE hc0) h
      | exact execGroupF_no_crash _ _ _ h
      | repeat first
          | exact TickOut.noConfusion h
          | split at h
          | omega
  · rw [if_neg hc0] at h
    by_cases hc1 : b0 &&& 0xF0 = 0x10
    · rw [if_pos hc1] at h
      first
        | exact execSys_no_crash _ _ _ hSP1 hSP2 h
        | exact execGroup8_no_crash _ _ _ h
        | exact execDrw_no_crash _ _ _ hW hH h
        | exact execGroupE_no_crash _ _ _ (hE hc1) h
        | exact execGroupF_no_crash _ _ _ h
        | repeat first
            | exact TickOut.noConfusion h
            | split at h
            | omega
    · rw [if_neg hc1] at h
      by_cases hc2 : b0 &&& 0xF0 = 0x20
      · rw [if_pos hc2] at h
        first
          | exact execSys_no_crash _ _ _ hSP1 hSP2 h
          | exact execGroup8_no_crash _ _ _ h
          | exact execDrw_no_crash _ _ _ hW hH h
          | exact execGroupE_no_crash _ _ _ (hE hc2) h
          | exact execGroupF_no_crash _ _ _ h
          | repeat first
              | exact TickOut.noConfusion h
              | split at h
              | omega
      · rw [if_neg hc2] at h
        by_cases hc3 : b0 &&& 0xF0 = 0x30
        · rw [if_pos hc3] at h
          first
            | exact execSys_no_crash _ _ _ hSP1 hSP2 h
            | exact execGroup8_no_crash _ _ _ h
            | exact execDrw_no_crash _ _ _ hW hH h
            | exact execGroupE_no_crash _ _ _ (hE hc3) h
            | exact execGroupF_no_crash _ _ _ h
            | repeat first
                | exact TickOut.noConfusion h
                | split at h
                | omega
        · rw [if_neg hc3] at h
          by_cases hc4 : b0 &&& 0xF0 = 0x40
          · rw [if_pos hc4] at h
            first
              | exact execSys_no_crash _ _ _ hSP1 hSP2 h
              | exact execGroup8_no_crash _ _ _ h
              | exact execDrw_no_crash _ _ _ hW hH h
              | exact execGroupE_no_crash _ _ _ (hE hc4) h
              | exact execGroupF_no_crash _ _ _ h
              | repeat first
                  | exact TickOut.noConfusion h
                  | split at h
                  | omega
          · rw [if_neg hc4] at h
            by_cases hc5 : b0 &&& 0xF0 = 0x50
            · rw [if_pos hc5] at h
              first
                | exact execSys_no_crash _ _ _ hSP1 hSP2 h
                | exact execGroup8_no_crash _ _ _ h
                | exact execDrw_no_crash _ _ _ hW hH h
                | exact execGroupE_no_crash _ _ _ (hE hc5) h
                | exact execGroupF_no_crash _ _ _ h
                | repeat first
                    | exact TickOut.noConfusion h
                    | split at h
                    | omega
            · rw [if_neg hc5] at h
              by_cases hc6 : b0 &&& 0xF0 = 0x60
              · rw [if_pos hc6] at h
                first
                  | exact execSys_no_crash _ _ _ hSP1 hSP2 h
                  | exact execGroup8_no_crash _ _ _ h
                  | exact execDrw_no_crash _ _ _ hW hH h
                  | exact execGroupE_no_crash _ _ _ (hE hc6) h
                  | exact execGroupF_no_crash _ _ _ h
                  | repeat first
                      | exact TickOut.noConfusion h
                      | split at h
                      | omega
              · rw [if_neg hc6] at h
                by_cases hc7 : b0 &&& 0xF0 = 0x70
                · rw [if_pos hc7] at h
                  first
                    | exact execSys_no_crash _ _ _ hSP1 hSP2 h
                    | exact execGroup8_no_crash _ _ _ h
                    | exact execDrw_no_crash _ _ _ hW hH h
                    | exact execGroupE_no_crash _ _ _ (hE hc7) h
                    | exact execGroupF_no_crash _ _ _ h
                    | repeat first
                        | exact TickOut.noConfusion h
                        | split at h
                        | omega
                · rw [if_neg hc7] at h
                  by_cases hc8 : b0 &&& 0xF0 = 0x80
                  · rw [if_pos hc8] at h
                    first
                      | exact execSys_no_crash _ _ _ hSP1 hSP2 h
                      | exact execGroup8_no_crash _ _ _ h
                      | exact execDrw_no_crash _ _ _ hW hH h
                      | exact execGroupE_no_crash _ _ _ (hE hc8) h
                      | exact execGroupF_no_crash _ _ _ h
                      | repeat first
                          | exact TickOut.noConfusion h
                          | split at h
                          | omega
                  · rw [if_neg hc8] at h
                    by_cases hc9 : b0 &&& 0xF0 = 0x90
                    · rw [if_pos hc9] at h
                      first
                        | exact execSys_no_crash _ _ _ hSP1 hSP2 h
                        | exact execGroup8_no_crash _ _ _ h
                        | exact execDrw_no_crash _ _ _ hW hH h
                        | exact execGroupE_no_crash _ _ _ (hE hc9) h
                        | exact execGroupF_no_crash _ _ _ h
                        | repeat first
                            | exact TickOut.noConfusion h
                            | split at h
                            | omega
                    · rw [if_neg hc9] at h
                      by_cases hc10 : b0 &&& 0xF0 = 0xA0
                      · rw [if_pos hc10] at h
                        first
                          | exact execSys_no_crash _ _ _ hSP1 hSP2 h
                          | exact execGroup8_no_crash _ _ _ h
                          | exact execDrw_no_crash _ _ _ hW hH h
                          | exact execGroupE_no_crash _ _ _ (hE hc10) h
                          | exact execGroupF_no_crash _ _ _ h
                          | repeat first
                              | exact TickOut.noConfusion h
                              | split at h
                              | omega
                      · rw [if_neg hc10] at h
                        by_cases hc11 : b0 &&& 0xF0 = 0xB0
                        · rw [if_pos hc11] at h
                          first
                            | exact execSys_no_crash _ _ _ hSP1 hSP2 h
                            | exact execGroup8_no_crash _ _ _ h
                            | exact execDrw_no_crash _ _ _ hW hH h
                            | exact execGroupE_no_crash _ _ _ (hE hc11) h
                            | exact execGroupF_no_crash _ _ _ h
                            | repeat first
                                | exact TickOut.noConfusion h
                                | split at h
                                | omega
                        · rw [if_neg hc11] at h
                          by_cases hc12 : b0 &&& 0xF0 = 0xC0
                          · rw [if_pos hc12] at h
                            first
                              | exact execSys_no_crash _ _ _ hSP1 hSP2 h
                              | exact execGroup8_no_crash _ _ _ h
                              | exact execDrw_no_crash _ _ _ hW hH h
                              | exact execGroupE_no_crash _ _ _ (hE hc12) h
                              | exact execGroupF_no_crash _ _ _ h
                              | repeat first
                                  | exact TickOut.noConfusion h
                                  | split at h
                                  | omega
                          · rw [if_neg hc12] at h
                            by_cases hc13 : b0 &&& 0xF0 = 0xD0
                            · rw [if_pos hc13] at h
                              first
                                | exact execSys_no_crash _ _ _ hSP1 hSP2 h
                                | exact execGroup8_no_crash _ _ _ h
                                | exact execDrw_no_crash _ _ _ hW hH h
                                | exact execGroupE_no_crash _ _ _ (hE hc13) h
                                | exact execGroupF_no_crash _ _ _ h
                                | repeat first
                                    | exact TickOut.noConfusion h
                                    | split at h
                                    | omega
                            · rw [if_neg hc13] at h
                              by_cases hc14 : b0 &&& 0xF0 = 0xE0
                              · rw [if_pos hc14] at h
                                first
                                  | exact execSys_no_crash _ _ _ hSP1 hSP2 h
                                  | exact execGroup8_no_crash _ _ _ h
                                  | exact execDrw_no_crash _ _ _ hW hH h
                                  | exact execGroupE_no_crash _ _ _ (hE hc14) h
                                  | exact execGroupF_no_crash _ _ _ h
                                  | repeat first
                                      | exact TickOut.noConfusion h
                                      | split at h
                                      | omega
                              · rw [if_neg hc14] at h
                                by_cases hc15 : b0 &&& 0xF0 = 0xF0
                                · rw [if_pos hc15] at h
                                  first
                                    | exact execSys_no_crash _ _ _ hSP1 hSP2 h
                                    | exact execGroup8_no_crash _ _ _ h
                                    | exact execDrw_no_crash _ _ _ hW hH h
                                    | exact execGroupE_no_crash _ _ _ (hE hc15) h
                                    | exact execGroupF_no_crash _ _ _ h
                                    | repeat first
                                        | exact TickOut.noConfusion h
                                        | split at h
                                        | omega
                                · rw [if_neg hc15] at h
                                  first
                                    | exact execSys_no_crash _ _ _ hSP1 hSP2 h
                                    | exact execGroup8_no_crash _ _ _ h
                                    | exact execDrw_no_crash _ _ _ hW hH h
                                    | exact execGroupE_no_crash _ _ _ (hE hc16) h
                                    | exact execGroupF_no_crash _ _ _ h
                                    | repeat first
                                        | exact TickOut.noConfusion h
                                        | split at h
                                        | omega

theorem execGroupE_crash (b0 b1 : Nat) (c : Chip8)
    (hb : b1 = 0x9E ∨ b1 = 0xA1)
    (hV : 16 ≤ c.V.getD (b0 &&& 0x0F) 0) :
    execGroupE b0 b1 c = .crash := by
  unfold execGroupE
  rcases hb with hb | hb
  · rw [if_pos hb, if_neg (by omega)]
  · rw [if_neg (by omega), if_pos hb, if_neg (by omega)]

theorem execOp_e_crash (b0 b1 : Nat) (c : Chip8)
    (hb0 : b0 &&& 0xF0 = 0xE0)
    (hb : b1 = 0x9E ∨ b1 = 0xA1)
    (hV : 16 ≤ c.V.getD (b0 &&& 0x0F) 0) :
    execOp b0 b1 c = .crash := by
  unfold execOp
  rw [if_neg (show ¬(b0 &&& 0xF0 = 0x00) by omega),
      if_neg (show ¬(b0 &&& 0xF0 = 0x10) by omega),
      if_neg (show ¬(b0 &&& 0xF0 = 0x20) by omega),
      if_neg (show ¬(b0 &&& 0xF0 = 0x30) by omega),
      if_neg (show ¬(b0 &&& 0xF0 = 0x40) by omega),
      if_neg (show ¬(b0 &&& 0xF0 = 0x50) by omega),
      if_neg (show ¬(b0 &&& 0xF0 = 0x60) by omega),
      if_neg (show ¬(b0 &&& 0xF0 = 0x70) by omega),
      if_neg (show ¬(b0 &&& 0xF0 = 0x80) by omega),
      if_neg (show ¬(b0 &&& 0xF0 = 0x90) by omega),
      if_neg (show ¬(b0 &&& 0xF0 = 0xA0) by omega),
      if_neg (show ¬(b0 &&& 0xF0 = 0xB0) by omega),
      if_neg (show ¬(b0 &&& 0xF0 = 0xC0) by omega),
      if_neg (show ¬(b0 &&& 0xF0 = 0xD0) by omega),
      if_pos hb0]
  exact execGroupE_crash b0 b1 c hb hV

/-- C10: totality of the per-cycle step under the unstated precondition.
(1) If the cycle starts with no pending key-wait in a machine shaped as
`New` builds it — stack pointer in `[-1, capacity)`, byte-aligned nonzero
screen dimensions with a screen buffer of exactly `Width/8 * Height`
bytes (so every `DRW` screen access is in bounds), a positive timer
interval (so the timer-drain loop terminates), a 16-slot register file,
at most 0xFFFF bytes of memory — the 2-byte fetch fits in memory
(`PC + 2 ≤ memory size`), and — whenever the fetched instruction is in
the 0xE group — the key-flag index `V[X]` is at most 0xF, then the cycle
never faults: it completes or returns a defined error.  The shape
hypotheses pin the domain on which the embedding represents the source
faithfully: outside it the source can fault at `Screen[index]` or hang in
the drain loop, which the embedding does not represent.  (2) If the fetch
does not fit (`PC + 2 > memory size` for a 16-bit `PC`), the cycle
faults (the unguarded slice `Memory[PC:PC+2]`).  (3) If an `EX9E`/`EXA1`
instruction executes with `V[X] ≥ 16`, the cycle faults (the unguarded
lookup `KeyFlags[V[X]]`). -/
theorem c10_step_totality_precondition :
    (∀ (c : Chip8) (now : Nat),
      -1 ≤ c.SP → c.SP < (c.Stack.length : Int) →
      0 < c.Width → 0 < c.Height → c.Width % 8 = 0 →
      c.Screen.length = c.Width / 8 * c.Height →
      0 < c.TimerInterval → c.V.length = 16 →
      c.Memory.length ≤ 65535 →
      c.wii = none → c.PC + 2 ≤ c.Memory.length →
      (c.Memory.getD c.PC 0 &&& 0xF0 = 0xE0 →
        c.V.getD (c.Memory.getD c.PC 0 &&& 0x0F) 0 < 16) →
      Tick c now ≠ .crash) ∧
    (∀ (c : Chip8) (now : Nat),
      c.wii = none → c.PC < 65536 → c.Memory.length < c.PC + 2 →
      Tick c now = .crash) ∧
    (∀ (c : Chip8) (now : Nat),
      c.wii = none → c.PC + 2 ≤ c.Memory.length → c.Memory.length ≤ 65535 →
      c.Memory.getD c.PC 0 &&& 0xF0 = 0xE0 →
      (c.Memory.getD (c.PC + 1) 0 = 0x9E ∨
        c.Memory.getD (c.PC + 1) 0 = 0xA1) →
      16 ≤ c.V.getD (c.Memory.getD c.PC 0 &&& 0x0F) 0 →
      Tick c now = .crash) := by
  refine ⟨?_, ?_, ?_⟩
  · intro c now hSP1 hSP2 hW hH hW8 hscr hTI hVl hM hw hfit hE h
    unfold Tick at h
    rw [hw] at h
    unfold tickFetch at h
    simp only [] at h
    rw [if_pos (by constructor <;> omega)] at h
    split at h
    · exact TickOut.noConfusion h
    · exact TickOut.noConfusion h
    · rename_i heq
      exact execOp_no_crash _ _ { c with PC := (c.PC + 2) % 65536 }
        hSP1 hSP2 hW hH hE heq
  · intro c now hw hpc hlen
    unfold Tick
    rw [hw]
    unfold tickFetch
    simp only []
    rw [if_neg (by rintro ⟨h1, h2⟩; omega)]
  · intro c now hw hfit hM hb0 hb hV
    unfold Tick
    rw [hw]
    unfold tickFetch
    simp only []
    rw [if_pos (by constructor <;> omega)]
    rw [execOp_e_crash _ _ { c with PC := (c.PC + 2) % 65536 } hb0 hb hV]

/-- A sane two-byte machine whose instruction is `CLS` (0x00E0). -/
def c10OkMachine : Chip8 :=
  { Memory := [0x00, 0xE0]
    V := List.replicate 16 0
    I := 0
    Stack := []
    SP := -1
    PC := 0
    DT := 0
    ST := 0
    Keyboard := 0
    Screen := [0]
    Width := 8
    Height := 1
    TimerInterval := 1
    lastTimerUpdate := none
    wii := none
    LegacyMode := false
    Rng := [] }

/-- A one-byte machine: the two-byte fetch at PC = 0 does not fit. -/
def c10FetchMachine : Chip8 :=
  { c10OkMachine with Memory := [0x00] }

/-- A machine about to execute `SKP V5` (0xE59E) with `V[5] = 20 ≥ 16`. -/
def c10KeyMachine : Chip8 :=
  { c10OkMachine with
    Memory := [0xE5, 0x9E]
    V := ((List.replicate 16 0).set 5 20) }

/-- Witness: the totality theorem applies to a sane `CLS` machine, and
the two precondition violations each fault. -/
theorem c10_step_totality_precondition_witness :
    (Tick c10OkMachine 0 ≠ .crash) ∧
    (Tick c10FetchMachine 0 = .crash) ∧
    (Tick c10KeyMachine 0 = .crash) :=
  ⟨c10_step_totality_precondition.1 c10OkMachine 0 (by decide)
      (of_decide_eq_true rfl) (by decide) (of_decide_eq_true rfl)
      (by decide) (of_decide_eq_true rfl) (by decide)
      (of_decide_eq_true rfl) (by decide) rfl
      (of_decide_eq_true rfl) (by decide),
   c10_step_totality_precondition.2.1 c10FetchMachine 0 rfl
      (of_decide_eq_true rfl) (by decide),
   c10_step_totality_precondition.2.2 c10KeyMachine 0 rfl (by decide)
      (of_decide_eq_true rfl) (by decide) (of_decide_eq_true rfl)
      (by decide)⟩

/-!
C8: the double-draw involution and collision flag of `DRW`.  The screen
effect of a draw is a list of byte-XOR operations (`drawOps`) depending
only on the position, the geometry and the sprite — XORing them in twice
cancels.  For the collision flag, after a first draw over a blank screen
each row's target bytes hold exactly that row's contribution
(`rowsPinned`), so the second draw's scan sees every previously set bit
cleared and reports a collision at the first nonzero row.
-/

def applyOps (s : List Nat) (ops : List (Nat × Nat)) : List Nat :=
  ops.foldl (fun t p => xorAt t p.1 p.2) s

def opsXor (j : Nat) : List (Nat × Nat) → Nat
  | [] => 0
  | p :: rest => if p.1 = j then p.2 ^^^ opsXor j rest else opsXor j rest

def drawOps (x bw h : Nat) : List Nat → Nat → List (Nat × Nat)
  | [], _ => []
  | b :: rest, y =>
    ((y * bw + x / 8, b >>> (x % 8)) ::
      (if x % 8 ≠ 0 then
        [(y * bw + (x / 8 + 1) % bw, (b <<< (8 - x % 8)) % 256)]
      else [])) ++ drawOps x bw h rest ((y + 1) % h)

theorem xorAt_length (s : List Nat) (i v : Nat) :
    (xorAt s i v).length = s.length := by
  simp [xorAt]

theorem applyOps_length (ops : List (Nat × Nat)) :
    ∀ s : List Nat, (applyOps s ops).length = s.length := by
  induction ops with
  | nil => intro s; rfl
  | cons p rest ih =>
    intro s
    show (applyOps (xorAt s p.1 p.2) rest).length = s.length
    rw [ih, xorAt_length]

theorem applyOps_getD (ops : List (Nat × Nat)) :
    ∀ (s : List Nat) (j : Nat), j < s.length →
      (applyOps s ops).getD j 0 = s.getD j 0 ^^^ opsXor j ops := by
  induction ops with
  | nil => intro s j hj; simp [applyOps, opsXor]
  | cons p rest ih =>
    intro s j hj
    show (applyOps (xorAt s p.1 p.2) rest).getD j 0 = _
    rw [ih (xorAt s p.1 p.2) j (by rw [xorAt_length]; exact hj)]
    by_cases hp : p.1 = j
    · subst hp
      rw [show xorAt s p.1 p.2 = s.set p.1 (s.getD p.1 0 ^^^ p.2) from rfl,
        getD_set_self s p.1 _ hj,
        show opsXor p.1 (p :: rest) = p.2 ^^^ opsXor p.1 rest from if_pos rfl,
        Nat.xor_assoc]
    · rw [show xorAt s p.1 p.2 = s.set p.1 (s.getD p.1 0 ^^^ p.2) from rfl,
        getD_set_ne s _ hp,
        show opsXor j (p :: rest) = opsXor j rest from if_neg hp]

theorem opsXor_append (j : Nat) (L1 L2 : List (Nat × Nat)) :
    opsXor j (L1 ++ L2) = opsXor j L1 ^^^ opsXor j L2 := by
  induction L1 with
  | nil => simp [opsXor]
  | cons p rest ih =>
    show opsXor j (p :: (rest ++ L2)) = _
    by_cases hp : p.1 = j
    · rw [show opsXor j (p :: (rest ++ L2)) = p.2 ^^^ opsXor j (rest ++ L2)
          from if_pos hp,
        show opsXor j (p :: rest) = p.2 ^^^ opsXor j rest from if_pos hp,
        ih, Nat.xor_assoc]
    · rw [show opsXor j (p :: (rest ++ L2)) = opsXor j (rest ++ L2)
          from if_neg hp,
        show opsXor j (p :: rest) = opsXor j rest from if_neg hp, ih]

theorem applyOps_append (s : List Nat) (L1 L2 : List (Nat × Nat)) :
    applyOps s (L1 ++ L2) = applyOps (applyOps s L1) L2 :=
  List.foldl_append _ _ _ _

theorem list_eq_of_getD (s t : List Nat) (hl : s.length = t.length)
    (h : ∀ j, j < s.length → s.getD j 0 = t.getD j 0) : s = t := by
  apply List.ext_getElem hl
  intro j h1 h2
  have := h j h1
  rwa [List.getD_eq_getElem?_getD, List.getD_eq_getElem?_getD,
    List.getElem?_eq_getElem h1, List.getElem?_eq_getElem h2] at this

theorem applyOps_involution (s : List Nat) (L : List (Nat × Nat)) :
    applyOps (applyOps s L) L = s := by
  rw [← applyOps_append]
  apply list_eq_of_getD
  · rw [applyOps_length]
  · intro j hj
    rw [applyOps_getD _ _ _ (by rwa [applyOps_length] at hj),
      opsXor_append, Nat.xor_self, Nat.xor_zero]

theorem drwLoop_screen (x bw h : Nat) :
    ∀ (rem : List Nat) (y : Nat) (s : List Nat) (vf : Nat),
      (drwLoop x bw h rem y s vf).1 = applyOps s (drawOps x bw h rem y) := by
  intro rem
  induction rem with
  | nil => intro y s vf; rfl
  | cons b rest ih =>
    intro y s vf
    by_cases hbo : x % 8 ≠ 0
    · simp only [drwLoop, drawOps, if_pos hbo, List.cons_append,
        List.singleton_append, applyOps, List.foldl_cons]
      exact ih _ _ _
    · simp only [drwLoop, drawOps, if_neg hbo, List.cons_append,
        List.nil_append, applyOps, List.foldl_cons]
      exact ih _ _ _

theorem drwLoop_length (x bw h : Nat) :
    ∀ (rem : List Nat) (y : Nat) (s : List Nat) (vf : Nat),
      ((drwLoop x bw h rem y s vf).1).length = s.length := by
  intro rem
  induction rem with
  | nil => intro y s vf; rfl
  | cons b rest ih =>
    intro y s vf
    show ((drwLoop x bw h rest _ _ _).1).length = _
    rw [ih]
    by_cases hbo : x % 8 ≠ 0 <;>
      simp [hbo, xorAt_length]

theorem block_lt {bw : Nat} (y1 y2 a1 a2 : Nat) (h1 : a1 < bw)
    (hy : y1 < y2) : y1 * bw + a1 < y2 * bw + a2 :=
  calc y1 * bw + a1 < y1 * bw + bw := by omega
    _ = (y1 + 1) * bw := by ring
    _ ≤ y2 * bw := Nat.mul_le_mul_right bw hy
    _ ≤ y2 * bw + a2 := Nat.le_add_right _ _

theorem block_ne {bw : Nat} (y1 y2 a1 a2 : Nat) (h1 : a1 < bw)
    (h2 : a2 < bw) (hy : y1 ≠ y2) : y1 * bw + a1 ≠ y2 * bw + a2 := by
  rcases Nat.lt_or_ge y1 y2 with h | h
  · exact Nat.ne_of_lt (block_lt y1 y2 a1 a2 h1 h)
  · exact Nat.ne_of_gt (block_lt y2 y1 a2 a1 h2 (by omega))

/-- The XORed-in byte value of each sprite row lands on an all-zero set of
target bytes: the precondition for the first draw over a blank screen. -/
def cleanRows (x bw : Nat) : List Nat → Nat → List Nat → Prop
  | [], _, _ => True
  | _ :: rest, y, s =>
      s.getD (y * bw + x / 8) 0 = 0 ∧
      s.getD (y * bw + x / 8 + 1) 0 = 0 ∧
      cleanRows x bw rest (y + 1) s

/-- After the first draw, each row's one or two target bytes hold exactly
that row's sprite contribution. -/
def rowsPinned (x bw : Nat) : List Nat → Nat → List Nat → Prop
  | [], _, _ => True
  | b :: rest, y, s =>
      s.getD (y * bw + x / 8) 0 = b >>> (x % 8) ∧
      (x % 8 ≠ 0 →
        s.getD (y * bw + (x / 8 + 1) % bw) 0 = (b <<< (8 - x % 8)) % 256) ∧
      rowsPinned x bw rest (y + 1) s

theorem cleanRows_of_zero (x bw : Nat) :
    ∀ (rem : List Nat) (y : Nat) (s : List Nat),
      (∀ j, s.getD j 0 = 0) → cleanRows x bw rem y s := by
  intro rem
  induction rem with
  | nil => intro y s _; trivial
  | cons b rest ih =>
    intro y s hz
    exact ⟨hz _, hz _, ih _ _ hz⟩

theorem rowsPinned_congr (x bw : Nat) :
    ∀ (rem : List Nat) (y : Nat) (s t : List Nat),
      (∀ j, s.getD j 0 = t.getD j 0) →
      rowsPinned x bw rem y s → rowsPinned x bw rem y t := by
  intro rem
  induction rem with
  | nil => intro y s t _ _; trivial
  | cons b rest ih =>
    intro y s t he hp
    exact ⟨(he _).symm.trans hp.1,
      fun hbo => (he _).symm.trans (hp.2.1 hbo),
      ih _ _ _ he hp.2.2⟩

theorem cleanRows_set (x bw : Nat) :
    ∀ (rem : List Nat) (y : Nat) (s : List Nat) (i v : Nat),
      cleanRows x bw rem y s →
      (∀ k, k < rem.length →
        i ≠ (y + k) * bw + x / 8 ∧ i ≠ (y + k) * bw + x / 8 + 1) →
      cleanRows x bw rem y (s.set i v) := by
  intro rem
  induction rem with
  | nil => intro y s i v _ _; trivial
  | cons b rest ih =>
    intro y s i v hc hj
    have h0 := hj 0 (by simp)
    rw [Nat.add_zero] at h0
    refine ⟨?_, ?_, ?_⟩
    · rw [getD_set_ne s _ h0.1]; exact hc.1
    · rw [getD_set_ne s _ h0.2]; exact hc.2.1
    · refine ih _ _ _ _ hc.2.2 (fun k hk => ?_)
      have h := hj (k + 1) (by simpa using Nat.succ_lt_succ hk)
      rwa [show y + (k + 1) = y + 1 + k from by omega] at h

/-- Reading any index after rewriting an index with its own value. -/
theorem getD_set_getD (s : List Nat) (i j : Nat) :
    (s.set i (s.getD i 0)).getD j 0 = s.getD j 0 := by
  by_cases hij : i = j
  · subst hij
    by_cases hi : i < s.length
    · exact getD_set_self s i _ hi
    · rw [List.set_eq_of_length_le (by omega)]
  · exact getD_set_ne s _ hij

theorem opsXor_eq_zero (j : Nat) :
    ∀ L : List (Nat × Nat), (∀ p ∈ L, p.1 ≠ j) → opsXor j L = 0 := by
  intro L
  induction L with
  | nil => intro _; rfl
  | cons p rest ih =>
    intro hp
    show (if p.1 = j then p.2 ^^^ opsXor j rest else opsXor j rest) = 0
    rw [if_neg (hp p (by simp)), ih (fun q hq => hp q (by simp [hq]))]

theorem drawOps_mem_fst (x bw h : Nat) :
    ∀ (rem : List Nat) (y : Nat) (p : Nat × Nat),
      y + rem.length ≤ h → p ∈ drawOps x bw h rem y →
      ∃ k, k < rem.length ∧
        (p.1 = (y + k) * bw + x / 8 ∨
          p.1 = (y + k) * bw + (x / 8 + 1) % bw) := by
  intro rem
  induction rem with
  | nil => intro y p _ hp; exact absurd hp (by simp [drawOps])
  | cons b rest ih =>
    intro y p hle hp
    rw [drawOps, List.mem_append] at hp
    rcases hp with hp | hp
    · by_cases hbo : x % 8 ≠ 0
      · rw [if_pos hbo] at hp
        simp only [List.mem_cons, List.not_mem_nil, or_false] at hp
        rcases hp with hp | hp
        · exact ⟨0, by simp, Or.inl (by simp [hp])⟩
        · exact ⟨0, by simp, Or.inr (by simp [hp])⟩
      · rw [if_neg hbo] at hp
        simp only [List.mem_cons, List.not_mem_nil, or_false] at hp
        exact ⟨0, by simp, Or.inl (by simp [hp])⟩
    · rcases rest with _ | ⟨b2, rest2⟩
      · exact absurd hp (by simp [drawOps])
      · have hy1 : (y + 1) % h = y + 1 := by
          apply Nat.mod_eq_of_lt
          simp only [List.length_cons] at hle
          omega
        rw [hy1] at hp
        obtain ⟨k, hk, hor⟩ := ih (y + 1) p (by
          simp only [List.length_cons] at hle ⊢
          omega) hp
        exact ⟨k + 1, by simpa using Nat.succ_lt_succ hk,
          by rwa [show y + (k + 1) = y + 1 + k from by omega]⟩

theorem drwLoop_untouched (x bw h : Nat) (rem : List Nat) (y : Nat)
    (s : List Nat) (vf j : Nat) (hle : y + rem.length ≤ h)
    (hj : ∀ k, k < rem.length →
      j ≠ (y + k) * bw + x / 8 ∧ j ≠ (y + k) * bw + (x / 8 + 1) % bw) :
    ((drwLoop x bw h rem y s vf).1).getD j 0 = s.getD j 0 := by
  rw [drwLoop_screen]
  by_cases hjl : j < s.length
  · rw [applyOps_getD _ _ _ hjl, opsXor_eq_zero, Nat.xor_zero]
    intro p hp
    obtain ⟨k, hk, hor⟩ := drawOps_mem_fst x bw h rem y p hle hp
    rcases hor with hor | hor <;> rw [hor]
    · exact fun he => (hj k hk).1 he.symm
    · exact fun he => (hj k hk).2 he.symm
  · rw [List.getD_eq_default _ _ (by rw [applyOps_length]; omega),
      List.getD_eq_default _ _ (by omega)]

theorem block_lt_total {bw h : Nat} (y a : Nat) (ha : a < bw) (hy : y < h) :
    y * bw + a < bw * h :=
  calc y * bw + a < (y + 1) * bw := by ring_nf; omega
    _ ≤ h * bw := Nat.mul_le_mul_right bw hy
    _ = bw * h := Nat.mul_comm h bw

/-- The one or two screen-byte XORs performed by one row of `DRW`. -/
def rowWrite (x bw b y : Nat) (s : List Nat) : List Nat :=
  if x % 8 ≠ 0 then
    xorAt (xorAt s (y * bw + x / 8) (b >>> (x % 8)))
      (y * bw + (x / 8 + 1) % bw) ((b <<< (8 - x % 8)) % 256)
  else xorAt s (y * bw + x / 8) (b >>> (x % 8))

/-- The collision-flag update performed by one row of `DRW`. -/
def rowVf (x bw b y : Nat) (s : List Nat) (vf : Nat) : Nat :=
  if vf = 0 then
    collideScan (x % 8) (s.getD (y * bw + x / 8) 0 &&& (0xFF >>> (x % 8)))
      ((rowWrite x bw b y s).getD (y * bw + x / 8) 0) (0xFF >>> (x % 8))
      (if x % 8 ≠ 0 then
        (xorAt s (y * bw + x / 8) (b >>> (x % 8))).getD
            (y * bw + (x / 8 + 1) % bw) 0
          &&& ((0xFF >>> (x % 8)) ^^^ 0xFF)
      else 0)
      ((rowWrite x bw b y s).getD (y * bw + (x / 8 + 1) % bw) 0)
      ((0xFF >>> (x % 8)) ^^^ 0xFF) scanMasks
  else vf

theorem drwLoop_cons (x bw h b y vf : Nat) (rest : List Nat)
    (s : List Nat) :
    drwLoop x bw h (b :: rest) y s vf
      = drwLoop x bw h rest ((y + 1) % h) (rowWrite x bw b y s)
          (rowVf x bw b y s vf) := by
  show drwLoop x bw h rest ((y + 1) % h) _ _ = _
  by_cases hbo : x % 8 ≠ 0 <;>
    simp only [rowWrite, rowVf, xorAt, if_pos, if_neg, hbo, ite_true,
      ite_false, ne_eq, not_true_eq_false, not_false_eq_true, ite_not]

theorem rowWrite_length (x bw b y : Nat) (s : List Nat) :
    (rowWrite x bw b y s).length = s.length := by
  unfold rowWrite
  by_cases hbo : x % 8 ≠ 0 <;> simp [hbo, xorAt_length]

theorem ni_id (x bw : Nat) (hx : x + 8 ≤ 8 * bw) (hbo : x % 8 ≠ 0) :
    (x / 8 + 1) % bw = x / 8 + 1 :=
  Nat.mod_eq_of_lt (by omega)

theorem rowWrite_getD_i (x bw b y : Nat) (s : List Nat)
    (hbw : 2 ≤ bw) (hx : x + 8 ≤ 8 * bw)
    (hcl : s.getD (y * bw + x / 8) 0 = 0)
    (hlt : y * bw + x / 8 < s.length) :
    (rowWrite x bw b y s).getD (y * bw + x / 8) 0 = b >>> (x % 8) := by
  unfold rowWrite
  by_cases hbo : x % 8 ≠ 0
  · rw [if_pos hbo]
    have hne : y * bw + (x / 8 + 1) % bw ≠ y * bw + x / 8 := by
      rw [ni_id x bw hx hbo]; omega
    rw [show xorAt (xorAt s (y * bw + x / 8) (b >>> (x % 8)))
          (y * bw + (x / 8 + 1) % bw) ((b <<< (8 - x % 8)) % 256)
        = (xorAt s (y * bw + x / 8) (b >>> (x % 8))).set
            (y * bw + (x / 8 + 1) % bw)
            ((xorAt s (y * bw + x / 8) (b >>> (x % 8))).getD
                (y * bw + (x / 8 + 1) % bw) 0
              ^^^ (b <<< (8 - x % 8)) % 256) from rfl,
      getD_set_ne _ _ hne,
      show xorAt s (y * bw + x / 8) (b >>> (x % 8))
          = s.set (y * bw + x / 8) (s.getD (y * bw + x / 8) 0 ^^^ b >>> (x % 8))
        from rfl,
      getD_set_self _ _ _ hlt, hcl, Nat.zero_xor]
  · rw [if_neg hbo,
      show xorAt s (y * bw + x / 8) (b >>> (x % 8))
          = s.set (y * bw + x / 8) (s.getD (y * bw + x / 8) 0 ^^^ b >>> (x % 8))
        from rfl,
      getD_set_self _ _ _ hlt, hcl, Nat.zero_xor]

theorem rowWrite_getD_ni (x bw b y : Nat) (s : List Nat)
    (hbw : 2 ≤ bw) (hx : x + 8 ≤ 8 * bw) (hbo : x % 8 ≠ 0)
    (hcl : s.getD (y * bw + x / 8 + 1) 0 = 0)
    (hlt : y * bw + (x / 8 + 1) % bw < s.length) :
    (rowWrite x bw b y s).getD (y * bw + (x / 8 + 1) % bw) 0
      = (b <<< (8 - x % 8)) % 256 := by
  unfold rowWrite
  rw [if_pos hbo]
  have hne : y * bw + x / 8 ≠ y * bw + (x / 8 + 1) % bw := by
    rw [ni_id x bw hx hbo]; omega
  rw [show xorAt (xorAt s (y * bw + x / 8) (b >>> (x % 8)))
        (y * bw + (x / 8 + 1) % bw) ((b <<< (8 - x % 8)) % 256)
      = (xorAt s (y * bw + x / 8) (b >>> (x % 8))).set
          (y * bw + (x / 8 + 1) % bw)
          ((xorAt s (y * bw + x / 8) (b >>> (x % 8))).getD
              (y * bw + (x / 8 + 1) % bw) 0
            ^^^ (b <<< (8 - x % 8)) % 256) from rfl,
    getD_set_self _ _ _ (by rw [xorAt_length]; exact hlt),
    show xorAt s (y * bw + x / 8) (b >>> (x % 8))
        = s.set (y * bw + x / 8) (s.getD (y * bw + x / 8) 0 ^^^ b >>> (x % 8))
      from rfl,
    getD_set_ne _ _ hne,
    show y * bw + (x / 8 + 1) % bw = y * bw + x / 8 + 1 by
      rw [ni_id x bw hx hbo]; omega,
    hcl, Nat.zero_xor]

theorem first_draw_pins (x bw h : Nat) (hbw : 2 ≤ bw) (hx : x + 8 ≤ 8 * bw) :
    ∀ (rem : List Nat) (y : Nat) (s : List Nat) (vf : Nat),
      y + rem.length ≤ h → cleanRows x bw rem y s → s.length = bw * h →
      rowsPinned x bw rem y (drwLoop x bw h rem y s vf).1 := by
  intro rem
  induction rem with
  | nil => intro y s vf _ _ _; trivial
  | cons b rest ih =>
    intro y s vf hle hcl hlen
    have hy : y < h := by simp only [List.length_cons] at hle; omega
    have hx8 : x / 8 < bw := by omega
    have hnib : (x / 8 + 1) % bw < bw := Nat.mod_lt _ (by omega)
    have hilt : y * bw + x / 8 < s.length := by
      rw [hlen]; exact block_lt_total y _ hx8 hy
    have hnilt : y * bw + (x / 8 + 1) % bw < s.length := by
      rw [hlen]; exact block_lt_total y _ hnib hy
    have huntle : (y + 1) % h + rest.length ≤ h := by
      rcases rest with _ | ⟨b2, rest2⟩
      · simpa using Nat.le_of_lt (Nat.mod_lt (y + 1) (by omega))
      · rw [Nat.mod_eq_of_lt (by simp only [List.length_cons] at hle; omega)]
        simp only [List.length_cons] at hle ⊢
        omega
    have hshift : ∀ a : Nat, a < bw →
        ∀ k, k < rest.length →
          y * bw + a ≠ ((y + 1) % h + k) * bw + x / 8 ∧
          y * bw + a ≠ ((y + 1) % h + k) * bw + (x / 8 + 1) % bw := by
      intro a ha k hk
      have hr1 : rest.length ≥ 1 := by omega
      have hy1 : (y + 1) % h = y + 1 := by
        apply Nat.mod_eq_of_lt
        simp only [List.length_cons] at hle
        omega
      rw [hy1]
      exact ⟨Nat.ne_of_lt (block_lt y (y + 1 + k) _ _ ha (by omega)),
        Nat.ne_of_lt (block_lt y (y + 1 + k) _ _ ha (by omega))⟩
    rw [drwLoop_cons]
    refine ⟨?_, ?_, ?_⟩
    · rw [drwLoop_untouched x bw h rest _ _ _ _ huntle (hshift _ hx8)]
      exact rowWrite_getD_i x bw b y s hbw hx hcl.1 hilt
    · intro hbo
      rw [drwLoop_untouched x bw h rest _ _ _ _ huntle (hshift _ hnib)]
      exact rowWrite_getD_ni x bw b y s hbw hx hbo hcl.2.1 hnilt
    · rcases rest with _ | ⟨b2, rest2⟩
      · trivial
      · have hy1 : (y + 1) % h = y + 1 := by
          apply Nat.mod_eq_of_lt
          simp only [List.length_cons] at hle
          omega
        rw [hy1]
        apply ih (y + 1) (rowWrite x bw b y s) _
          (by simp only [List.length_cons] at hle ⊢; omega)
          ?_ (by rw [rowWrite_length]; exact hlen)
        have key : ∀ (t : List Nat) (a v : Nat), a < bw →
            cleanRows x bw (b2 :: rest2) (y + 1) t →
            cleanRows x bw (b2 :: rest2) (y + 1) (t.set (y * bw + a) v) := by
          intro t a v ha hct
          apply cleanRows_set x bw _ _ _ _ _ hct
          intro k hk
          have hb := @block_lt bw y (y + 1 + k) a (x / 8) ha (by omega)
          exact ⟨by omega, by omega⟩
        unfold rowWrite
        by_cases hbo : x % 8 ≠ 0
        · rw [if_pos hbo]
          exact key _ _ _ hnib (key _ _ _ hx8 hcl.2.2)
        · rw [if_neg hbo]
          exact key _ _ _ hx8 hcl.2.2

theorem drwLoop_vf_one (x bw h : Nat) :
    ∀ (rem : List Nat) (y : Nat) (s : List Nat),
      (drwLoop x bw h rem y s 1).2 = 1 := by
  intro rem
  induction rem with
  | nil => intro y s; rfl
  | cons b rest ih =>
    intro y s
    rw [drwLoop_cons, show rowVf x bw b y s 1 = 1 from if_neg one_ne_zero]
    exact ih _ _

theorem collideScan_zero (bitoff old1 new1 m1 old2 new2 m2 : Nat)
    (h1 : ∀ m, old1 &&& m ≤ new1 &&& m1 &&& m)
    (h2 : ∀ m, old2 &&& m ≤ new2 &&& m2 &&& m) :
    ∀ ms : List Nat,
      collideScan bitoff old1 new1 m1 old2 new2 m2 ms = 0 := by
  intro ms
  induction ms with
  | nil => rfl
  | cons m rest ih =>
    show (if (old1 &&& m) > (new1 &&& m1 &&& m) then 1
      else if bitoff ≠ 0 ∧ (old2 &&& m) > (new2 &&& m2 &&& m) then 1
      else if m = 0x80 then 0
      else collideScan bitoff old1 new1 m1 old2 new2 m2 rest) = 0
    rw [if_neg (by have := h1 m; omega),
      if_neg (by rintro ⟨-, hgt⟩; have := h2 m; omega)]
    by_cases hm : m = 0x80
    · rw [if_pos hm]
    · rw [if_neg hm]; exact ih

theorem collideScan_hit_aux (bitoff old1 new1 m1 old2 new2 m2 : Nat) :
    ∀ ms' : List Nat, 0x80 ∉ ms' →
      (∃ m ∈ ms' ++ [0x80], old1 &&& m > new1 &&& m1 &&& m ∨
        (bitoff ≠ 0 ∧ old2 &&& m > new2 &&& m2 &&& m)) →
      collideScan bitoff old1 new1 m1 old2 new2 m2 (ms' ++ [0x80]) = 1 := by
  intro ms'
  induction ms' with
  | nil =>
    intro _ h
    obtain ⟨m, hm, hc⟩ := h
    simp only [List.nil_append, List.mem_singleton] at hm
    subst hm
    show (if (old1 &&& 0x80) > (new1 &&& m1 &&& 0x80) then 1
      else if bitoff ≠ 0 ∧ (old2 &&& 0x80) > (new2 &&& m2 &&& 0x80) then 1
      else if (0x80 : Nat) = 0x80 then 0
      else collideScan bitoff old1 new1 m1 old2 new2 m2 []) = 1
    rcases hc with hc | hc
    · rw [if_pos hc]
    · by_cases h1 : (old1 &&& 0x80) > (new1 &&& m1 &&& 0x80)
      · rw [if_pos h1]
      · rw [if_neg h1, if_pos hc]
  | cons m rest ih =>
    intro h80 h
    show (if (old1 &&& m) > (new1 &&& m1 &&& m) then 1
      else if bitoff ≠ 0 ∧ (old2 &&& m) > (new2 &&& m2 &&& m) then 1
      else if m = 0x80 then 0
      else collideScan bitoff old1 new1 m1 old2 new2 m2 (rest ++ [0x80])) = 1
    by_cases h1 : (old1 &&& m) > (new1 &&& m1 &&& m)
    · rw [if_pos h1]
    · rw [if_neg h1]
      by_cases h2 : bitoff ≠ 0 ∧ (old2 &&& m) > (new2 &&& m2 &&& m)
      · rw [if_pos h2]
      · rw [if_neg h2, if_neg (by intro hm; exact h80 (by simp [hm]))]
        apply ih (by intro hmem; exact h80 (by simp [hmem]))
        obtain ⟨m', hm', hc⟩ := h
        simp only [List.cons_append, List.mem_cons] at hm'
        rcases hm' with hm' | hm'
        · subst hm'
          rcases hc with hc | hc
          · exact absurd hc h1
          · exact absurd hc h2
        · exact ⟨m', hm', hc⟩

theorem collideScan_hit (bitoff old1 new1 m1 old2 new2 m2 : Nat)
    (h : ∃ m ∈ scanMasks, old1 &&& m > new1 &&& m1 &&& m ∨
      (bitoff ≠ 0 ∧ old2 &&& m > new2 &&& m2 &&& m)) :
    collideScan bitoff old1 new1 m1 old2 new2 m2 scanMasks = 1 := by
  have hsplit : scanMasks
      = [0x01, 0x02, 0x04, 0x08, 0x10, 0x20, 0x40] ++ [0x80] := rfl
  rw [hsplit] at h ⊢
  exact collideScan_hit_aux bitoff old1 new1 m1 old2 new2 m2
    [0x01, 0x02, 0x04, 0x08, 0x10, 0x20, 0x40] (by decide) h

theorem m1_eq (bo : Nat) (h : bo < 8) :
    (0xFF : Nat) >>> bo = 2 ^ (8 - bo) - 1 := by
  interval_cases bo <;> decide

theorem v1_lt (b bo : Nat) (hb : b < 256) (h : bo < 8) :
    b >>> bo < 2 ^ (8 - bo) := by
  rw [Nat.shiftRight_eq_div_pow]
  interval_cases bo <;> simp_all <;> omega

theorem v1_and_m1 (b bo : Nat) (hb : b < 256) (hbo : bo < 8) :
    (b >>> bo) &&& (0xFF >>> bo) = b >>> bo := by
  rw [m1_eq bo hbo, Nat.and_pow_two_sub_one_eq_mod,
    Nat.mod_eq_of_lt (v1_lt b bo hb hbo)]

theorem v2_and_m2 (b bo : Nat) (hbo : bo < 8) :
    ((b <<< (8 - bo)) % 256) &&& ((0xFF >>> bo) ^^^ 0xFF)
      = (b <<< (8 - bo)) % 256 := by
  apply Nat.eq_of_testBit_eq
  intro q
  rw [Nat.testBit_and]
  by_cases hq : ((b <<< (8 - bo)) % 256).testBit q = true
  · rw [hq, Bool.true_and]
    have h' := hq
    rw [show (256 : Nat) = 2 ^ 8 from rfl, Nat.testBit_mod_two_pow,
      Nat.testBit_shiftLeft, Bool.and_eq_true, Bool.and_eq_true,
      decide_eq_true_eq, decide_eq_true_eq] at h'
    rw [Nat.testBit_xor, Nat.testBit_shiftRight,
      show (0xFF : Nat) = 2 ^ 8 - 1 from rfl,
      Nat.testBit_two_pow_sub_one, Nat.testBit_two_pow_sub_one,
      decide_eq_false (by omega : ¬(bo + q < 8)),
      decide_eq_true h'.1]
    rfl
  · rw [Bool.not_eq_true] at hq
    rw [hq, Bool.false_and]

theorem testBit_ne_zero {w p : Nat} (h : w.testBit p = true) : w ≠ 0 := by
  intro h0
  rw [h0, Nat.zero_testBit] at h
  exact Bool.false_ne_true h

theorem row_value_nonzero (b bo : Nat) (hb : b < 256) (hbo : bo < 8)
    (hnz : b ≠ 0) :
    b >>> bo ≠ 0 ∨ (bo ≠ 0 ∧ (b <<< (8 - bo)) % 256 ≠ 0) := by
  by_cases hv1 : b >>> bo = 0
  · right
    obtain ⟨p, hp⟩ := Nat.ne_zero_implies_bit_true hnz
    have hplt : p < bo := by
      by_contra hge
      have : (b >>> bo).testBit (p - bo) = true := by
        rw [Nat.testBit_shiftRight, show bo + (p - bo) = p from by omega]
        exact hp
      rw [hv1, Nat.zero_testBit] at this
      exact Bool.false_ne_true this
    have hbo0 : bo ≠ 0 := by omega
    refine ⟨hbo0, testBit_ne_zero (p := p + (8 - bo)) ?_⟩
    rw [show (256 : Nat) = 2 ^ 8 from rfl, Nat.testBit_mod_two_pow,
      Nat.testBit_shiftLeft, decide_eq_true (by omega : p + (8 - bo) < 8),
      decide_eq_true (by omega : 8 - bo ≤ p + (8 - bo)),
      show p + (8 - bo) - (8 - bo) = p from by omega, hp]
    rfl
  · exact Or.inl hv1

theorem exists_mask_hit (w : Nat) (hw : w ≠ 0) (hlt : w < 256) :
    ∃ m ∈ scanMasks, w &&& m ≠ 0 := by
  obtain ⟨p, hp⟩ := Nat.ne_zero_implies_bit_true hw
  have hp8 : p < 8 := by
    by_contra hge
    have h1 : 2 ^ p ≤ w := Nat.testBit_implies_ge hp
    have h2 : (2 : Nat) ^ 8 ≤ 2 ^ p := Nat.pow_le_pow_right (by omega) (by omega)
    omega
  refine ⟨2 ^ p, by interval_cases p <;> decide, ?_⟩
  rw [Nat.and_two_pow, hp]
  have : 0 < 2 ^ p := Nat.pos_pow_of_pos p (by omega)
  simp only [Bool.toNat_true, Nat.one_mul]
  omega

theorem rowWrite_getD_i_gen (x bw b y : Nat) (s : List Nat)
    (hx : x + 8 ≤ 8 * bw)
    (hlt : y * bw + x / 8 < s.length) :
    (rowWrite x bw b y s).getD (y * bw + x / 8) 0
      = s.getD (y * bw + x / 8) 0 ^^^ (b >>> (x % 8)) := by
  unfold rowWrite
  by_cases hbo : x % 8 ≠ 0
  · rw [if_pos hbo]
    have hne : y * bw + (x / 8 + 1) % bw ≠ y * bw + x / 8 := by
      rw [ni_id x bw hx hbo]; omega
    rw [show xorAt (xorAt s (y * bw + x / 8) (b >>> (x % 8)))
          (y * bw + (x / 8 + 1) % bw) ((b <<< (8 - x % 8)) % 256)
        = (xorAt s (y * bw + x / 8) (b >>> (x % 8))).set
            (y * bw + (x / 8 + 1) % bw)
            ((xorAt s (y * bw + x / 8) (b >>> (x % 8))).getD
                (y * bw + (x / 8 + 1) % bw) 0
              ^^^ (b <<< (8 - x % 8)) % 256) from rfl,
      getD_set_ne _ _ hne,
      show xorAt s (y * bw + x / 8) (b >>> (x % 8))
          = s.set (y * bw + x / 8)
              (s.getD (y * bw + x / 8) 0 ^^^ b >>> (x % 8)) from rfl,
      getD_set_self _ _ _ hlt]
  · rw [if_neg hbo,
      show xorAt s (y * bw + x / 8) (b >>> (x % 8))
          = s.set (y * bw + x / 8)
              (s.getD (y * bw + x / 8) 0 ^^^ b >>> (x % 8)) from rfl,
      getD_set_self _ _ _ hlt]

theorem rowWrite_getD_ni_gen (x bw b y : Nat) (s : List Nat)
    (hx : x + 8 ≤ 8 * bw) (hbo : x % 8 ≠ 0)
    (hlt : y * bw + (x / 8 + 1) % bw < s.length) :
    (rowWrite x bw b y s).getD (y * bw + (x / 8 + 1) % bw) 0
      = s.getD (y * bw + (x / 8 + 1) % bw) 0 ^^^ ((b <<< (8 - x % 8)) % 256) := by
  unfold rowWrite
  rw [if_pos hbo]
  have hne : y * bw + x / 8 ≠ y * bw + (x / 8 + 1) % bw := by
    rw [ni_id x bw hx hbo]; omega
  rw [show xorAt (xorAt s (y * bw + x / 8) (b >>> (x % 8)))
        (y * bw + (x / 8 + 1) % bw) ((b <<< (8 - x % 8)) % 256)
      = (xorAt s (y * bw + x / 8) (b >>> (x % 8))).set
          (y * bw + (x / 8 + 1) % bw)
          ((xorAt s (y * bw + x / 8) (b >>> (x % 8))).getD
              (y * bw + (x / 8 + 1) % bw) 0
            ^^^ (b <<< (8 - x % 8)) % 256) from rfl,
    getD_set_self _ _ _ (by rw [xorAt_length]; exact hlt),
    show xorAt s (y * bw + x / 8) (b >>> (x % 8))
        = s.set (y * bw + x / 8)
            (s.getD (y * bw + x / 8) 0 ^^^ b >>> (x % 8)) from rfl,
    getD_set_ne _ _ hne]

theorem drw_second_vf (x bw h : Nat) (hbw : 2 ≤ bw) (hx : x + 8 ≤ 8 * bw) :
    ∀ (rem : List Nat) (y : Nat) (s : List Nat),
      y + rem.length ≤ h →
      (∀ b ∈ rem, b < 256) →
      s.length = bw * h →
      rowsPinned x bw rem y s →
      (∃ b ∈ rem, b ≠ 0) →
      (drwLoop x bw h rem y s 0).2 = 1 := by
  intro rem
  induction rem with
  | nil => intro y s _ _ _ _ hnz; simp at hnz
  | cons b rest ih =>
    intro y s hle hb hlen hpin hnz
    have hy : y < h := by simp only [List.length_cons] at hle; omega
    have hx8 : x / 8 < bw := by omega
    have hnib : (x / 8 + 1) % bw < bw := Nat.mod_lt _ (by omega)
    have hilt : y * bw + x / 8 < s.length := by
      rw [hlen]; exact block_lt_total y _ hx8 hy
    have hnilt : y * bw + (x / 8 + 1) % bw < s.length := by
      rw [hlen]; exact block_lt_total y _ hnib hy
    have hbolt : x % 8 < 8 := Nat.mod_lt _ (by omega)
    rw [drwLoop_cons]
    by_cases hbz : b = 0
    · subst hbz
      have hrw : ∀ j, (rowWrite x bw 0 y s).getD j 0 = s.getD j 0 := by
        intro j
        unfold rowWrite xorAt
        by_cases hbo : x % 8 ≠ 0
        · rw [if_pos hbo]
          simp only [Nat.zero_shiftRight, Nat.zero_shiftLeft, Nat.zero_mod,
            Nat.xor_zero]
          rw [getD_set_getD, getD_set_getD]
        · rw [if_neg hbo]
          simp only [Nat.zero_shiftRight, Nat.xor_zero]
          rw [getD_set_getD]
      have hvf : rowVf x bw 0 y s 0 = 0 := by
        unfold rowVf
        rw [if_pos rfl]
        apply collideScan_zero
        · intro m
          rw [hrw]
        · intro m
          by_cases hbo : x % 8 ≠ 0
          · rw [if_pos hbo, hrw,
              show xorAt s (y * bw + x / 8) (0 >>> (x % 8))
                  = s.set (y * bw + x / 8)
                      (s.getD (y * bw + x / 8) 0 ^^^ 0 >>> (x % 8)) from rfl,
              Nat.zero_shiftRight, Nat.xor_zero, getD_set_getD]
          · rw [if_neg hbo, Nat.zero_and]
            exact Nat.zero_le _
      rw [hvf]
      have hnz' : ∃ b' ∈ rest, b' ≠ 0 := by
        rcases hnz with ⟨b', hmem, hne⟩
        simp only [List.mem_cons] at hmem
        rcases hmem with hmem | hmem
        · exact absurd hmem.symm (Ne.symm hne)
        · exact ⟨b', hmem, hne⟩
      rcases rest with _ | ⟨b2, rest2⟩
      · simp at hnz'
      · have hy1 : (y + 1) % h = y + 1 := by
          apply Nat.mod_eq_of_lt
          simp only [List.length_cons] at hle
          omega
        rw [hy1]
        apply ih (y + 1) (rowWrite x bw 0 y s)
          (by simp only [List.length_cons] at hle ⊢; omega)
          (fun b' hm => hb b' (List.mem_cons_of_mem _ hm))
          (by rw [rowWrite_length]; exact hlen)
          (rowsPinned_congr x bw _ _ _ _ (fun j => (hrw j).symm) hpin.2.2)
          hnz'
    · have hblt : b < 256 := hb b (List.mem_cons_self _ _)
      have hv1lt : b >>> (x % 8) < 256 := by
        have h1 := v1_lt b (x % 8) hblt hbolt
        have h2 : (2 : Nat) ^ (8 - x % 8) ≤ 2 ^ 8 :=
          Nat.pow_le_pow_right (by omega) (by omega)
        omega
      have hnew1 : (rowWrite x bw b y s).getD (y * bw + x / 8) 0 = 0 := by
        rw [rowWrite_getD_i_gen x bw b y s hx hilt, hpin.1, Nat.xor_self]
      have hvf1 : rowVf x bw b y s 0 = 1 := by
        unfold rowVf
        rw [if_pos rfl]
        apply collideScan_hit
        rcases row_value_nonzero b (x % 8) hblt hbolt hbz with hv | ⟨hbo, hv⟩
        · obtain ⟨m, hm, hma⟩ := exists_mask_hit (b >>> (x % 8)) hv hv1lt
          refine ⟨m, hm, Or.inl ?_⟩
          rw [hpin.1, v1_and_m1 b (x % 8) hblt hbolt, hnew1,
            Nat.zero_and, Nat.zero_and]
          omega
        · obtain ⟨m, hm, hma⟩ := exists_mask_hit ((b <<< (8 - x % 8)) % 256)
            hv (Nat.mod_lt _ (by omega))
          refine ⟨m, hm, Or.inr ⟨hbo, ?_⟩⟩
          have hne : y * bw + x / 8 ≠ y * bw + (x / 8 + 1) % bw := by
            rw [ni_id x bw hx hbo]; omega
          rw [if_pos hbo,
            show xorAt s (y * bw + x / 8) (b >>> (x % 8))
                = s.set (y * bw + x / 8)
                    (s.getD (y * bw + x / 8) 0 ^^^ b >>> (x % 8)) from rfl,
            getD_set_ne _ _ hne, hpin.2.1 hbo, v2_and_m2 b (x % 8) hbolt,
            rowWrite_getD_ni_gen x bw b y s hx hbo hnilt, hpin.2.1 hbo,
            Nat.xor_self, Nat.zero_and, Nat.zero_and]
          omega
      rw [hvf1]
      exact drwLoop_vf_one x bw h rest _ _

/-- The screen produced by one `DRW` execution. -/
def drwScreen (b0 b1 : Nat) (c : Chip8) : List Nat :=
  (drwLoop (c.V.getD (b0 &&& 0x0F) 0 % c.Width) (c.Width / 8) c.Height
    ((List.range (b1 &&& 0x0F)).map fun j => c.Memory.getD (c.I + j) 0)
    (c.V.getD ((b1 &&& 0xF0) >>> 4) 0 % c.Height) c.Screen 0).1

/-- The collision flag produced by one `DRW` execution. -/
def drwFlag (b0 b1 : Nat) (c : Chip8) : Nat :=
  (drwLoop (c.V.getD (b0 &&& 0x0F) 0 % c.Width) (c.Width / 8) c.Height
    ((List.range (b1 &&& 0x0F)).map fun j => c.Memory.getD (c.I + j) 0)
    (c.V.getD ((b1 &&& 0xF0) >>> 4) 0 % c.Height) c.Screen 0).2

/-- The machine state after one `DRW` execution (the ok branch). -/
def drwStep (b0 b1 : Nat) (c : Chip8) : Chip8 :=
  { c with
    Screen := (drwScreen b0 b1 c)
    V := (c.V.set 0xF (drwFlag b0 b1 c)) }

theorem execDrw_ok (b0 b1 : Nat) (c : Chip8)
    (h1 : ¬(c.Width = 0 ∨ c.Height = 0))
    (h2 : ¬(0xFFFF - c.I < b1 &&& 0x0F))
    (h3 : ¬((c.I : Int) + ((b1 &&& 0x0F : Nat) : Int) - 1
      ≥ (c.Memory.length : Int))) :
    execDrw b0 b1 c = .ok (drwStep b0 b1 c) [.screenUpdate] := by
  unfold execDrw drwStep drwScreen drwFlag
  rw [if_neg h1, if_neg h2, if_neg h3]

theorem getD_replicate_zero (k j : Nat) :
    (List.replicate k (0 : Nat)).getD j 0 = 0 := by
  rw [List.getD_eq_getElem?_getD, List.getElem?_replicate]
  split <;> rfl

/-- C8: drawing the same non-empty in-range sprite twice in succession at
the same coordinates (register X and Y nibbles distinct from 0xF, so the
first draw's flag write does not move the coordinates, sprite memory
untouched by `DRW`) over a blank screen restores every screen byte to its
original all-off state, and the second draw reports a collision in
`V[0xF]`.  In-range: the sprite's 8 columns and N rows fit on the screen
from the reduced draw position, the screen is at least two bytes wide,
and the sprite bytes are in memory range. -/
theorem c8_double_draw_collision (b0 b1 : Nat) (c : Chip8)
    (hX : b0 &&& 0x0F ≠ 0xF) (hY : (b1 &&& 0xF0) >>> 4 ≠ 0xF)
    (hVl : c.V.length = 16)
    (hW8 : c.Width % 8 = 0) (hW16 : 16 ≤ c.Width) (hH : 0 < c.Height)
    (hscr : c.Screen = List.replicate (c.Width / 8 * c.Height) 0)
    (hov : b1 &&& 0x0F ≤ 0xFFFF - c.I)
    (hacc : c.I + (b1 &&& 0x0F) ≤ c.Memory.length)
    (hfitY : c.V.getD ((b1 &&& 0xF0) >>> 4) 0 % c.Height + (b1 &&& 0x0F)
      ≤ c.Height)
    (hfitX : c.V.getD (b0 &&& 0x0F) 0 % c.Width + 8 ≤ c.Width)
    (hbytes : ∀ j, j < b1 &&& 0x0F → c.Memory.getD (c.I + j) 0 < 256)
    (hnz : ∃ j, j < b1 &&& 0x0F ∧ c.Memory.getD (c.I + j) 0 ≠ 0) :
    execDrw b0 b1 c = .ok (drwStep b0 b1 c) [.screenUpdate] ∧
    execDrw b0 b1 (drwStep b0 b1 c)
      = .ok (drwStep b0 b1 (drwStep b0 b1 c)) [.screenUpdate] ∧
    (drwStep b0 b1 (drwStep b0 b1 c)).Screen = c.Screen ∧
    (drwStep b0 b1 (drwStep b0 b1 c)).V.getD 0xF 0 = 1 := by
  have h1 : ¬(c.Width = 0 ∨ c.Height = 0) := by rintro (h | h) <;> omega
  have h2 : ¬(0xFFFF - c.I < b1 &&& 0x0F) := by omega
  have h3 : ¬((c.I : Int) + ((b1 &&& 0x0F : Nat) : Int) - 1
      ≥ (c.Memory.length : Int)) := by push_cast; omega
  have e_x : (drwStep b0 b1 c).V.getD (b0 &&& 0x0F) 0
      = c.V.getD (b0 &&& 0x0F) 0 := by
    show (c.V.set 0xF (drwFlag b0 b1 c)).getD (b0 &&& 0x0F) 0 = _
    exact getD_set_ne c.V _ (Ne.symm hX)
  have e_y : (drwStep b0 b1 c).V.getD ((b1 &&& 0xF0) >>> 4) 0
      = c.V.getD ((b1 &&& 0xF0) >>> 4) 0 := by
    show (c.V.set 0xF (drwFlag b0 b1 c)).getD ((b1 &&& 0xF0) >>> 4) 0 = _
    exact getD_set_ne c.V _ (Ne.symm hY)
  have eW : (drwStep b0 b1 c).Width = c.Width := rfl
  have eH : (drwStep b0 b1 c).Height = c.Height := rfl
  have eM : (drwStep b0 b1 c).Memory = c.Memory := rfl
  have eI : (drwStep b0 b1 c).I = c.I := rfl
  have eS : (drwStep b0 b1 c).Screen = drwScreen b0 b1 c := rfl
  have hbw : 2 ≤ c.Width / 8 := by omega
  have hx' : c.V.getD (b0 &&& 0x0F) 0 % c.Width + 8 ≤ 8 * (c.Width / 8) := by
    omega
  have hsl : c.Screen.length = c.Width / 8 * c.Height := by
    rw [hscr, List.length_replicate]
  have hle : c.V.getD ((b1 &&& 0xF0) >>> 4) 0 % c.Height
      + ((List.range (b1 &&& 0x0F)).map fun j =>
          c.Memory.getD (c.I + j) 0).length ≤ c.Height := by
    rw [List.length_map, List.length_range]
    exact hfitY
  have hbytes' : ∀ b ∈ (List.range (b1 &&& 0x0F)).map fun j =>
      c.Memory.getD (c.I + j) 0, b < 256 := by
    intro b hm
    simp only [List.mem_map, List.mem_range] at hm
    obtain ⟨j, hj, rfl⟩ := hm
    exact hbytes j hj
  have hnz' : ∃ b ∈ (List.range (b1 &&& 0x0F)).map fun j =>
      c.Memory.getD (c.I + j) 0, b ≠ 0 := by
    obtain ⟨j, hj, hne⟩ := hnz
    exact ⟨c.Memory.getD (c.I + j) 0,
      by simp only [List.mem_map, List.mem_range]; exact ⟨j, hj, rfl⟩, hne⟩
  have hclean : cleanRows (c.V.getD (b0 &&& 0x0F) 0 % c.Width) (c.Width / 8)
      ((List.range (b1 &&& 0x0F)).map fun j => c.Memory.getD (c.I + j) 0)
      (c.V.getD ((b1 &&& 0xF0) >>> 4) 0 % c.Height) c.Screen := by
    apply cleanRows_of_zero
    intro j
    rw [hscr]
    exact getD_replicate_zero _ j
  have hslen1 : (drwScreen b0 b1 c).length = c.Width / 8 * c.Height := by
    unfold drwScreen
    rw [drwLoop_length]
    exact hsl
  have hpin : rowsPinned (c.V.getD (b0 &&& 0x0F) 0 % c.Width) (c.Width / 8)
      ((List.range (b1 &&& 0x0F)).map fun j => c.Memory.getD (c.I + j) 0)
      (c.V.getD ((b1 &&& 0xF0) >>> 4) 0 % c.Height) (drwScreen b0 b1 c) := by
    unfold drwScreen
    exact first_draw_pins _ _ c.Height hbw hx' _ _ c.Screen 0 hle hclean hsl
  have hVl1 : (drwStep b0 b1 c).V.length = 16 := by
    show (c.V.set 0xF (drwFlag b0 b1 c)).length = 16
    rw [List.length_set, hVl]
  refine ⟨execDrw_ok b0 b1 c h1 h2 h3,
    execDrw_ok b0 b1 (drwStep b0 b1 c) h1 h2 h3, ?_, ?_⟩
  · show drwScreen b0 b1 (drwStep b0 b1 c) = c.Screen
    unfold drwScreen
    rw [eW, eH, eM, eI, eS, e_x, e_y, drwLoop_screen]
    unfold drwScreen
    rw [drwLoop_screen]
    exact applyOps_involution c.Screen _
  · show ((drwStep b0 b1 c).V.set 0xF
        (drwFlag b0 b1 (drwStep b0 b1 c))).getD 0xF 0 = 1
    rw [getD_set_self _ _ _ (by rw [hVl1]; omega)]
    unfold drwFlag
    rw [eW, eH, eM, eI, eS, e_x, e_y]
    exact drw_second_vf _ _ c.Height hbw hx' _ _ (drwScreen b0 b1 c)
      hle hbytes' hslen1 hpin hnz'

/-- A 16×2 machine with a one-row sprite 0xC0 at I = 0 and the draw
position (0,0): concrete input for the double-draw theorem. -/
def c8Machine : Chip8 :=
  { Memory := [0xC0]
    V := List.replicate 16 0
    I := 0
    Stack := []
    SP := -1
    PC := 0
    DT := 0
    ST := 0
    Keyboard := 0
    Screen := List.replicate 4 0
    Width := 16
    Height := 2
    TimerInterval := 1
    lastTimerUpdate := none
    wii := none
    LegacyMode := false
    Rng := [] }

theorem c8_double_draw_collision_witness :
    execDrw 0xD0 0x11 c8Machine
      = .ok (drwStep 0xD0 0x11 c8Machine) [.screenUpdate] ∧
    execDrw 0xD0 0x11 (drwStep 0xD0 0x11 c8Machine)
      = .ok (drwStep 0xD0 0x11 (drwStep 0xD0 0x11 c8Machine))
          [.screenUpdate] ∧
    (drwStep 0xD0 0x11 (drwStep 0xD0 0x11 c8Machine)).Screen
      = c8Machine.Screen ∧
    (drwStep 0xD0 0x11 (drwStep 0xD0 0x11 c8Machine)).V.getD 0xF 0 = 1 :=
  c8_double_draw_collision 0xD0 0x11 c8Machine (by decide)
    (of_decide_eq_true rfl) (by decide) (of_decide_eq_true rfl)
    (by decide) (of_decide_eq_true rfl) (by decide)
    (of_decide_eq_true rfl) (by decide) (of_decide_eq_true rfl)
    (by decide)
    (fun j hj => by
      have hj' : j < 1 := hj
      have hj0 : j = 0 := by omega
      subst hj0
      decide)
    ⟨0, by decide, by decide⟩

end GoHachi
